import Mathlib

/-!
Shallow embedding of `update-tags.py`, a batch tool that matches HSL (JORE)
public-transport stop records against OSM XML stop elements and enriches the
OSM elements with reference prefixes, shelter information and bilingual names.

Conventions of the embedding:
* Python strings are Lean `String`s; all string primitives used by the source
  (slicing, `startswith`, `replace`) are re-implemented structurally over
  `String.data` so that every definition evaluates inside the kernel.
* The global mutable `STATS` dictionary and the anomaly lists of `main` are
  modelled as a per-element `Report` delta; the document pass merges deltas.
  Counter names match the keys of `STATS` in the source.
* Geographic distance (`get_planar_distance_between_points`, which reprojects
  WGS84 coordinates to ETRS-TM35FIN with pyproj and measures a planar distance
  with shapely, truncated by `int`) is floating-point geodesy and is therefore
  abstracted as an oracle parameter `dist : Stop → Option (Int × Int) → Nat`
  supplied to the reconciliation pass; everything downstream of the returned
  integer distance (the `< 100` gate and the reporting) is embedded exactly.
-/

/-- Boolean test that the first character list is an initial segment of the
second; used to embed Python's `str.startswith`. -/
def listLeads : List Char → List Char → Bool
  | [], _ => true
  | _ :: _, [] => false
  | a :: as, b :: bs => decide (a = b) && listLeads as bs

/-- Embedding of Python `s.startswith(p)`. -/
def strStartsWith (s p : String) : Bool := listLeads p.data s.data

/-- Embedding of Python slicing `s[n:]`. -/
def strDrop (s : String) (n : Nat) : String := String.mk (s.data.drop n)

/-- Embedding of Python slicing `s[:n]`. -/
def strTake (s : String) (n : Nat) : String := String.mk (s.data.take n)

/-- Embedding of Python `r.replace("X", "XH")`: every occurrence of the
character `X` is replaced by the two characters `XH` (the pattern is a single
character, so Python's leftmost non-overlapping replacement is exactly a
character-wise substitution). -/
def replaceXtoXH (r : String) : String :=
  String.mk (r.data.foldr (fun c acc => if c = 'X' then 'X' :: 'H' :: acc else c :: acc) [])

/-- Dataclass `Stop` of `update-tags.py`: one JORE registry record with the
fields relevant to the import, including the values derived in
`__post_init__`. Coordinates are abstract integral values that are only ever
consumed by the distance oracle. -/
structure Stop where
  id : String
  stop_id : String
  name : String
  name_sv : String
  lat : Int
  lon : Int
  shelter : String
  municipality : Option String
  valid_route_and_timetable : Bool
deriving DecidableEq

/-- Constructor of `Stop` including the derivations of `__post_init__`:
shelter codes `"04"`/`"08"` give `"no"`, `"99"` gives `"unknown"`, anything
else the default `"yes"`; a `stop_id` whose first character is `H` or whose
first two characters are `XH` classifies the stop to Helsinki; the record is
excluded from the import iff both validity parameters are `0`. -/
def mkStop (id stop_id name name_sv : String) (lat lon : Int)
    (shelter_param : String) (valid_route_param valid_timetable_param : Int) : Stop :=
  { id := id, stop_id := stop_id, name := name, name_sv := name_sv, lat := lat, lon := lon,
    shelter :=
      if shelter_param = "04" ∨ shelter_param = "08" then "no"
      else if shelter_param = "99" then "unknown" else "yes",
    municipality :=
      if strTake stop_id 1 = "H" ∨ strTake stop_id 2 = "XH" then some "Helsinki" else none,
    valid_route_and_timetable := !(valid_route_param = 0 ∧ valid_timetable_param = 0) }

/-- Lookup in the registry index `all_jore_ref = {x.stop_id: x for x in stops}`.
A Python dict comprehension lets a later record with the same key overwrite an
earlier one, so the lookup returns the last stop in the list carrying the key. -/
def indexGet (stops : List Stop) (k : String) : Option Stop :=
  stops.reverse.find? (fun s => decide (s.stop_id = k))

/-- The ordered lookup chain of `main`:
`all_jore_ref.get(osm_ref) or all_jore_ref.get("H" + osm_ref) or
all_jore_ref.get("XH" + osm_ref[1:])` (a `Stop` object is always truthy, so
the chain returns the first lookup that found a record). -/
def matchChain (stops : List Stop) (r : String) : Option Stop :=
  match indexGet stops r with
  | some s => some s
  | none =>
    match indexGet stops ("H" ++ r) with
    | some s => some s
    | none => indexGet stops ("XH" ++ strDrop r 1)

/-- The confirmation condition of `main` applied to the chain's record:
`osm_ref == jore_stop.stop_id or (jore_stop.municipality == "Helsinki" and
osm_ref == jore_stop.stop_id[1:] or osm_ref.replace("X", "XH") ==
jore_stop.stop_id)`; by Python precedence the parenthesised part is
`(municipality ∧ tail-equality) ∨ replace-equality`. -/
def matchGuard (r : String) (s : Stop) : Bool :=
  decide (r = s.stop_id) ||
    ((decide (s.municipality = some "Helsinki") && decide (r = strDrop s.stop_id 1)) ||
      decide (replaceXtoXH r = s.stop_id))

/-- The matcher actually implemented by the source: the lookup chain followed
by the confirmation guard. (Importability is checked separately in the loop.) -/
def codeMatch (stops : List Stop) (r : String) : Option Stop :=
  match matchChain stops r with
  | some s => if matchGuard r s then some s else none
  | none => none

/-- Modelled from the spec wording of the Reference Matcher rules, for
comparison with `codeMatch`: (1) exact key; (2) a record classified to the
capital municipality whose key is `"H" + osm_ref`; (3) only when the OSM
reference begins with `"X"` but not `"XH"`, the record whose key is the OSM
reference with the leading `"X"` substituted by `"XH"`; first rule wins. -/
def specMatchRule3 (stops : List Stop) (r : String) : Option Stop :=
  if strStartsWith r "X" && !(strStartsWith r "XH") then
    indexGet stops ("XH" ++ strDrop r 1)
  else none

/-- Modelled from the spec wording of the Reference Matcher (see
`specMatchRule3` for rule 3): the ordered rules of the claim, returning the
record of the first rule that hits. -/
def specMatch (stops : List Stop) (r : String) : Option Stop :=
  match indexGet stops r with
  | some s => some s
  | none =>
    match indexGet stops ("H" ++ r) with
    | some s => if s.municipality = some "Helsinki" then some s else specMatchRule3 stops r
    | none => specMatchRule3 stops r

/-- One row of the `matched_stops_with_conflicting_shelter_info` list. -/
structure ConflictRow where
  jore_id : String
  ref : String
  jore_shelter : String
  osm_shelter : String
  osm_id : String
deriving DecidableEq

/-- One row of the `matched_but_not_within_distance_limit` list (the
coordinate columns of the CSV are elided; the identifying fields and the
computed distance are kept). -/
structure RangeRow where
  jore_id : String
  ref : String
  distance : Nat
  osm_id : String
deriving DecidableEq

/-- The counters of the global `STATS` dictionary together with the anomaly
lists accumulated by `main`, as a mergeable delta. -/
structure Report where
  matched : Nat
  not_within_max_distance : Nat
  prefixed : Nat
  sheltered_yes : Nat
  sheltered_no : Nat
  shelter_nodata : Nat
  named : Nat
  named_fi : Nat
  named_sv : Nat
  all_osm_refs : List String
  missing : List (String × String)
  conflicts : List ConflictRow
  out_of_range : List RangeRow
deriving DecidableEq

/-- The all-zero report (initial value of every counter and list). -/
def Report.zero : Report :=
  ⟨0, 0, 0, 0, 0, 0, 0, 0, 0, [], [], [], []⟩

/-- Pointwise merge of two report deltas (counters add, lists concatenate in
document order). -/
def Report.add (a b : Report) : Report :=
  ⟨a.matched + b.matched, a.not_within_max_distance + b.not_within_max_distance,
   a.prefixed + b.prefixed, a.sheltered_yes + b.sheltered_yes,
   a.sheltered_no + b.sheltered_no, a.shelter_nodata + b.shelter_nodata,
   a.named + b.named, a.named_fi + b.named_fi, a.named_sv + b.named_sv,
   a.all_osm_refs ++ b.all_osm_refs, a.missing ++ b.missing,
   a.conflicts ++ b.conflicts, a.out_of_range ++ b.out_of_range⟩

/-- One top-level element of the OSM XML document: its XML tag name (`node`,
`way`, `relation`), its `id` attribute, its optional `lat`/`lon` attributes
(abstract integral coordinates consumed only by the distance oracle), its
`tag` children as an ordered `k`/`v` list, and its `action` attribute. -/
structure OsmElem where
  kind : String
  eid : String
  coords : Option (Int × Int)
  tags : List (String × String)
  action : Option String
deriving DecidableEq

/-- Embedding of `get_osm_tags(...).get(k)`: the dict comprehension lets a
later `tag` child with the same key overwrite an earlier one, so lookup
returns the value of the last matching `tag` child. -/
def getTag (tags : List (String × String)) (k : String) : Option String :=
  (tags.reverse.find? (fun p => decide (p.1 = k))).map (fun p => p.2)

/-- Embedding of `update_tag`: mark the element modified and set the value of
every `tag` child whose key is `key`. -/
def update_tag (e : OsmElem) (key value : String) : OsmElem :=
  { e with action := some "modify",
           tags := e.tags.map (fun p => if p.1 = key then (p.1, value) else p) }

/-- Embedding of `create_tag`: mark the element modified and append a new
`tag` child. -/
def create_tag (e : OsmElem) (key value : String) : OsmElem :=
  { e with action := some "modify", tags := e.tags ++ [(key, value)] }

/-- Embedding of `add_stop_name`: take one snapshot of the element's tag dict,
then create each of `name`, `name:fi` (both from the record's primary name)
and `name:sv` (from the secondary name) whenever the key is absent from the
snapshot, incrementing the matching counter. -/
def add_stop_name (rep : Report) (e : OsmElem) (s : Stop) : Report × OsmElem :=
  let tags := e.tags
  let q1 : Report × OsmElem :=
    if getTag tags "name" = none then
      ({ rep with named := rep.named + 1 }, create_tag e "name" s.name)
    else (rep, e)
  let q2 : Report × OsmElem :=
    if getTag tags "name:fi" = none then
      ({ q1.1 with named_fi := q1.1.named_fi + 1 }, create_tag q1.2 "name:fi" s.name)
    else q1
  if getTag tags "name:sv" = none then
    ({ q2.1 with named_sv := q2.1.named_sv + 1 }, create_tag q2.2 "name:sv" s.name_sv)
  else q2

/-- Embedding of Python's `or` over the results of `dict.get`: `None` and the
empty string are falsy, anything else is returned unchanged. -/
def pyOr (a b : Option String) : Option String :=
  match a with
  | some v => if v = "" then b else some v
  | none => b

/-- Embedding of `osm_tags.get("highway") or osm_tags.get("railway") or
osm_tags.get("public_transport")`. -/
def stoptypeOf (tags : List (String × String)) : Option String :=
  pyOr (getTag tags "highway") (pyOr (getTag tags "railway") (getTag tags "public_transport"))

/-- Embedding of the `f"{OSM_URL}/{elem.tag}/{osm_id}"` locator. -/
def locatorOf (e : OsmElem) : String :=
  "https://www.openstreetmap.org/" ++ e.kind ++ "/" ++ e.eid

/-- Embedding of the reference-prefixing block of `main` (the
`if jore_stop.municipality == "Helsinki":` block): inside Helsinki, an OSM
reference starting with `X` but not `XH` is rewritten by substituting `X` with
`XH`; otherwise a reference starting with neither `H` nor `X` gets an `H`
prepended; at most one branch fires and `STATS["prefixed"]` counts it. -/
def rewriteStep (s : Stop) (r : String) (rep : Report) (e : OsmElem) : Report × OsmElem :=
  if s.municipality = some "Helsinki" then
    if strStartsWith r "X" && !(strStartsWith r "XH") then
      ({ rep with prefixed := rep.prefixed + 1 }, update_tag e "ref" (replaceXtoXH r))
    else if !(strStartsWith r "H") && !(strStartsWith r "X") then
      ({ rep with prefixed := rep.prefixed + 1 }, update_tag e "ref" ("H" ++ r))
    else (rep, e)
  else (rep, e)

/-- Embedding of the shelter block of `main`: when the snapshot has no
`shelter` tag, the element is not a relation and the stop type is not
`stop_position`, create `shelter=yes`/`shelter=no` from the record (the value
`unknown` only increments the no-data counter); otherwise, when a `shelter`
tag exists and the record's value is known and disagrees, append a conflict
row — the existing tag is never written. -/
def shelterStep (s : Stop) (osm_tags : List (String × String)) (stoptype : Option String)
    (kind locator : String) (rep : Report) (e : OsmElem) : Report × OsmElem :=
  if getTag osm_tags "shelter" = none ∧ kind ≠ "relation" ∧ stoptype ≠ some "stop_position" then
    if s.shelter = "yes" then
      ({ rep with sheltered_yes := rep.sheltered_yes + 1 }, create_tag e "shelter" "yes")
    else if s.shelter = "no" then
      ({ rep with sheltered_no := rep.sheltered_no + 1 }, create_tag e "shelter" "no")
    else if s.shelter = "unknown" then
      ({ rep with shelter_nodata := rep.shelter_nodata + 1 }, e)
    else (rep, e)
  else if (getTag osm_tags "shelter").isSome ∧ s.shelter ≠ "unknown" ∧
      some s.shelter ≠ getTag osm_tags "shelter" then
    ({ rep with conflicts := rep.conflicts ++
        [⟨s.id, s.stop_id, s.shelter, (getTag osm_tags "shelter").getD "", locator⟩] }, e)
  else (rep, e)

/-- The in-range mutation phase of `main` for a matched element: reference
prefixing, then shelter reconciliation, then name completion, all membership
tests taken against the tag snapshot read before any mutation (exactly the
`osm_tags` dict of the source). -/
def applyMutations (s : Stop) (r : String) (rep : Report) (e : OsmElem) : Report × OsmElem :=
  let osm_tags := e.tags
  let q1 := rewriteStep s r rep e
  let q2 := shelterStep s osm_tags (stoptypeOf osm_tags) e.kind (locatorOf e) q1.1 q1.2
  if getTag osm_tags "name" = none ∨ getTag osm_tags "name:fi" = none ∨
      getTag osm_tags "name:sv" = none then
    add_stop_name q2.1 q2.2 s
  else q2

/-- The report delta right after a successful guard: the reference was logged
into `all_osm_refs` and `STATS["matched"]` was incremented. -/
def matchedReport (r : String) : Report :=
  { Report.zero with all_osm_refs := [r], matched := 1 }

/-- Embedding of one iteration of the element loop of `main`, parameterised
by the distance oracle `dist` (abstracting
`get_planar_distance_between_points` applied to the record's coordinates and
the element's `lat`/`lon` attributes). An element without a truthy `ref` tag
is skipped; otherwise the lookup chain, importability test and confirmation
guard run, then the distance gate (only a `node` gets a computed distance,
every other element kind keeps `distance_difference = 0`), and finally either
the mutation phase or the out-of-range report row. -/
def processElem (dist : Stop → Option (Int × Int) → Nat) (stops : List Stop) (e : OsmElem) :
    Report × OsmElem :=
  match getTag e.tags "ref" with
  | none => (Report.zero, e)
  | some r =>
    if r = "" then (Report.zero, e)
    else
      match matchChain stops r with
      | none => ({ Report.zero with all_osm_refs := [r], missing := [(r, locatorOf e)] }, e)
      | some s =>
        if s.valid_route_and_timetable then
          if matchGuard r s then
            if (if e.kind = "node" then dist s e.coords else 0) < 100 then
              applyMutations s r (matchedReport r) e
            else
              ({ matchedReport r with
                  not_within_max_distance := 1
                  out_of_range := [⟨s.id, s.stop_id,
                    (if e.kind = "node" then dist s e.coords else 0), locatorOf e⟩] }, e)
          else ({ Report.zero with all_osm_refs := [r] }, e)
        else ({ Report.zero with all_osm_refs := [r], missing := [(r, locatorOf e)] }, e)

/-- Embedding of the whole element loop of `main`: every top-level element is
processed against the fixed registry list; report deltas merge in document
order. -/
def processDoc (dist : Stop → Option (Int × Int) → Nat) (stops : List Stop) :
    List OsmElem → Report × List OsmElem
  | [] => (Report.zero, [])
  | e :: rest =>
    let q := processElem dist stops e
    let qr := processDoc dist stops rest
    (q.1.add qr.1, q.2 :: qr.2)

/-- One feature of the GeoJSON registry input: either a well-formed feature
carrying the properties and coordinate pair read by
`read_stop_data_geojson`, or a malformed one whose field access raises. -/
inductive RawFeature where
  | good (solmutunnu lyhyttunnu nimi1 namn1 : String) (coord0 coord1 : Int)
      (pysakkityy : String) (rei_voim aik_voim : Int)
  | malformed (cause : String)
deriving DecidableEq

/-- Construction of a `Stop` from one well-formed feature, with the source's
argument order: the coordinate pair is unpacked as `lat, lon = coordinates`
and then passed to `Stop` as `(..., lon, lat, ...)`. A malformed feature has
no stop (its field access raises inside the loop). -/
def stopOfFeature : RawFeature → Option Stop
  | .good i sid n nsv c0 c1 sp rv av => some (mkStop i sid n nsv c1 c0 sp rv av)
  | .malformed _ => none

/-- Embedding of `read_stop_data_geojson`: the `try` block wraps the whole
feature loop, so an exception raised by a malformed feature aborts the loop
and the `except` handler logs it and returns the stops collected so far. -/
def read_stop_data_geojson : List RawFeature → List Stop
  | [] => []
  | f :: rest =>
    match stopOfFeature f with
    | some s => s :: read_stop_data_geojson rest
    | none => []

/-- The argparse `Namespace` produced by `parse_args`: exactly the three
positional arguments of the CLI. -/
structure ArgNamespace where
  input_osm : String
  input_stops : String
  output : String
deriving DecidableEq

/-- Embedding of Python attribute access on the argparse namespace: any
attribute other than the three declared ones raises `AttributeError`. -/
def getattrNs (ns : ArgNamespace) (attr : String) : Except String String :=
  if attr = "input_osm" then .ok ns.input_osm
  else if attr = "input_stops" then .ok ns.input_stops
  else if attr = "output" then .ok ns.output
  else .error ("AttributeError: Namespace object has no attribute " ++ attr)

/-- Outcome of the final persistence step of `main`. -/
inductive WriteOutcome where
  | saved (path : String)
  | reportedFailure (printedPath loggedPath : String)
  | uncaughtException (message : String)
deriving DecidableEq

/-- Embedding of the tail of `main`:
`try: etree.write(args.output) ... except Exception as e: print(f"...{args.output}...")`
followed by `logging.error(f"...{args.ouput}...")`. The handler first reads
`args.output` for the printed message and then reads `args.ouput` for the log
line; an attribute error raised inside the handler escapes `main`. -/
def write_output (ns : ArgNamespace) (writeFails : Bool) : WriteOutcome :=
  if writeFails then
    match getattrNs ns "output" with
    | .error m => .uncaughtException m
    | .ok printedPath =>
      match getattrNs ns "ouput" with
      | .error m => .uncaughtException m
      | .ok loggedPath => .reportedFailure printedPath loggedPath
  else
    match getattrNs ns "output" with
    | .error m => .uncaughtException m
    | .ok p => .saved p

/-- Well-formedness of a registry list: each record's Helsinki classification
agrees with its key's shape, as `mkStop` derives it. -/
def registryWF (stops : List Stop) : Bool :=
  stops.all (fun s =>
    decide ((s.municipality = some "Helsinki") ↔
      (strTake s.stop_id 1 = "H" ∨ strTake s.stop_id 2 = "XH")))

/-- Stability of one element's reference under a second run: after the first
run, the element's `ref` value either is unchanged, or no longer resolves
through the lookup chain, or resolves verbatim (by exact key) to the very
record that the original reference resolved to. -/
def secondLookupOk (dist : Stop → Option (Int × Int) → Nat) (stops : List Stop)
    (e : OsmElem) : Bool :=
  match getTag (processElem dist stops e).2.tags "ref", getTag e.tags "ref" with
  | some r1, some r0 =>
    decide (r1 = r0) ||
      (match matchChain stops r1 with
       | none => true
       | some s => decide (r1 = s.stop_id) && decide (matchChain stops r0 = some s))
  | _, _ => true

/-! ### Lemmas about the tag dictionary, the index and the string primitives -/

theorem indexGet_stop_id {stops : List Stop} {k : String} {s : Stop}
    (h : indexGet stops k = some s) : s.stop_id = k := by
  unfold indexGet at h
  have hp := List.find?_some h
  exact of_decide_eq_true hp

theorem getTag_append_ne (t : List (String × String)) {k k' : String} (v : String)
    (h : k' ≠ k) : getTag (t ++ [(k', v)]) k = getTag t k := by
  unfold getTag
  rw [List.reverse_append]
  simp [List.find?, h]

theorem getTag_append_self (t : List (String × String)) (k v : String) :
    getTag (t ++ [(k, v)]) k = some v := by
  unfold getTag
  rw [List.reverse_append]
  simp [List.find?]

theorem find?_map_comm {α : Type} (l : List α) (g : α → α) (p : α → Bool) :
    (l.map g).find? p = (l.find? (fun a => p (g a))).map g := by
  induction l with
  | nil => rfl
  | cons a l ih =>
    simp only [List.map_cons, List.find?_cons]
    cases h : p (g a) <;> simp [h, ih]

theorem updater_fst (key v : String) (p : String × String) :
    ((fun p : String × String => if p.1 = key then (p.1, v) else p) p).1 = p.1 := by
  by_cases h : p.1 = key <;> simp [h]

theorem getTag_map_updater (t : List (String × String)) (key v k : String) :
    getTag (t.map (fun p => if p.1 = key then (p.1, v) else p)) k =
      if k = key then (getTag t k).map (fun _ => v) else getTag t k := by
  unfold getTag
  rw [← List.map_reverse, find?_map_comm]
  have hp : (fun a : String × String =>
      (fun p : String × String => decide (p.1 = k))
        ((fun p : String × String => if p.1 = key then (p.1, v) else p) a)) =
      (fun p : String × String => decide (p.1 = k)) := by
    funext a
    by_cases h : a.1 = key <;> simp [h]
  rw [hp]
  cases hf : t.reverse.find? (fun p : String × String => decide (p.1 = k)) with
  | none => simp
  | some q =>
    have hq' := List.find?_some hf
    have hq : q.1 = k := of_decide_eq_true hq'
    by_cases hk : k = key
    · simp [hq, hk]
    · have : ¬ (q.1 = key) := by rw [hq]; exact hk
      simp [this, hk]

theorem getTag_update_ne (t : List (String × String)) (key v : String) {k : String}
    (h : k ≠ key) :
    getTag (t.map (fun p => if p.1 = key then (p.1, v) else p)) k = getTag t k := by
  rw [getTag_map_updater, if_neg h]

theorem getTag_update_self (t : List (String × String)) (key v : String) :
    getTag (t.map (fun p => if p.1 = key then (p.1, v) else p)) key =
      (getTag t key).map (fun _ => v) := by
  rw [getTag_map_updater, if_pos rfl]

theorem create_tag_kind (e : OsmElem) (k v : String) : (create_tag e k v).kind = e.kind := rfl

theorem create_tag_eid (e : OsmElem) (k v : String) : (create_tag e k v).eid = e.eid := rfl

theorem create_tag_coords (e : OsmElem) (k v : String) :
    (create_tag e k v).coords = e.coords := rfl

theorem create_tag_tags (e : OsmElem) (k v : String) :
    (create_tag e k v).tags = e.tags ++ [(k, v)] := rfl

theorem update_tag_kind (e : OsmElem) (k v : String) : (update_tag e k v).kind = e.kind := rfl

theorem update_tag_eid (e : OsmElem) (k v : String) : (update_tag e k v).eid = e.eid := rfl

theorem update_tag_coords (e : OsmElem) (k v : String) :
    (update_tag e k v).coords = e.coords := rfl

theorem getTag_create_ne (e : OsmElem) {k k' : String} (v : String) (h : k' ≠ k) :
    getTag (create_tag e k' v).tags k = getTag e.tags k := getTag_append_ne e.tags v h

theorem getTag_create_self (e : OsmElem) (k v : String) :
    getTag (create_tag e k v).tags k = some v := getTag_append_self e.tags k v

theorem getTag_update_tag_ne (e : OsmElem) (key v : String) {k : String} (h : k ≠ key) :
    getTag (update_tag e key v).tags k = getTag e.tags k := getTag_update_ne e.tags key v h

theorem getTag_update_tag_self (e : OsmElem) (key v : String) :
    getTag (update_tag e key v).tags key = (getTag e.tags key).map (fun _ => v) :=
  getTag_update_self e.tags key v

theorem stoptypeOf_congr {t t' : List (String × String)}
    (h1 : getTag t' "highway" = getTag t "highway")
    (h2 : getTag t' "railway" = getTag t "railway")
    (h3 : getTag t' "public_transport" = getTag t "public_transport") :
    stoptypeOf t' = stoptypeOf t := by
  unfold stoptypeOf
  rw [h1, h2, h3]

/-! ### String-shape lemmas for the prefixing logic -/

theorem leads_cons_iff (c : Char) (p l : List Char) :
    listLeads (c :: p) l = true ↔ ∃ t, l = c :: t ∧ listLeads p t = true := by
  cases l with
  | nil =>
    constructor
    · intro h
      exact absurd h (by simp [listLeads])
    · rintro ⟨t, ht, _⟩
      exact absurd ht (by simp)
  | cons b t =>
    constructor
    · intro h
      have hcb : c = b := by
        by_contra hne
        simp [listLeads, hne] at h
      refine ⟨t, by rw [hcb], ?_⟩
      simp [listLeads, hcb] at h
      exact h
    · rintro ⟨t', ht', hp⟩
      injection ht' with h1 h2
      subst h1
      subst h2
      simp [listLeads, hp]

theorem strStartsWith_single_iff (r : String) (c : Char) :
    strStartsWith r ⟨[c]⟩ = true ↔ ∃ t, r.data = c :: t := by
  unfold strStartsWith
  rw [leads_cons_iff]
  constructor
  · rintro ⟨t, ht, _⟩; exact ⟨t, ht⟩
  · rintro ⟨t, ht⟩; exact ⟨t, ht, rfl⟩

theorem strStartsWith_ne_char (r : String) {c d : Char} (hne : c ≠ d)
    (h : strStartsWith r ⟨[c]⟩ = true) : strStartsWith r ⟨[d]⟩ = false := by
  obtain ⟨t, ht⟩ := (strStartsWith_single_iff r c).mp h
  by_contra hfalse
  have hd : strStartsWith r ⟨[d]⟩ = true := by
    cases hdd : strStartsWith r ⟨[d]⟩
    · exact absurd hdd hfalse
    · rfl
  obtain ⟨t', ht'⟩ := (strStartsWith_single_iff r d).mp hd
  rw [ht] at ht'
  injection ht' with h1 _
  exact hne (h1 ▸ rfl)

theorem strStartsWith_X_of_XH (r : String) (h : strStartsWith r "XH" = true) :
    strStartsWith r "X" = true := by
  unfold strStartsWith at h ⊢
  have : "XH".data = 'X' :: 'H' :: [] := rfl
  rw [this] at h
  rw [leads_cons_iff] at h
  obtain ⟨t, ht, _⟩ := h
  show listLeads ('X' :: []) r.data = true
  rw [leads_cons_iff]
  exact ⟨t, ht, rfl⟩

theorem strStartsWith_H_append (r : String) : strStartsWith ("H" ++ r) "H" = true := by
  show listLeads ('H' :: []) ('H' :: r.data) = true
  simp [listLeads]

theorem strStartsWith_X_append_H (r : String) : strStartsWith ("H" ++ r) "X" = false := by
  show listLeads ('X' :: []) ('H' :: r.data) = false
  simp [listLeads]

theorem H_append_ne (r : String) : ("H" ++ r) ≠ r := by
  intro h
  have hd : ('H' :: r.data : List Char).length = r.data.length := by
    rw [show ('H' :: r.data : List Char) = ("H" ++ r).data from rfl, h]
  simp at hd

theorem replaceXtoXH_data (r : String) :
    (replaceXtoXH r).data =
      r.data.foldr (fun c acc => if c = 'X' then 'X' :: 'H' :: acc else c :: acc) [] := rfl

theorem replace_fold_length_ge (l : List Char) :
    l.length ≤ (l.foldr (fun c acc => if c = 'X' then 'X' :: 'H' :: acc else c :: acc) []).length := by
  induction l with
  | nil => simp
  | cons c t ih =>
    by_cases hc : c = 'X' <;> simp [hc] <;> omega

theorem strStartsWith_XH_replace (r : String) (h : strStartsWith r "X" = true) :
    strStartsWith (replaceXtoXH r) "XH" = true := by
  obtain ⟨t, ht⟩ := (strStartsWith_single_iff r 'X').mp h
  unfold strStartsWith
  rw [replaceXtoXH_data, ht]
  show listLeads ('X' :: 'H' :: [])
      ('X' :: 'H' :: t.foldr (fun c acc => if c = 'X' then 'X' :: 'H' :: acc else c :: acc) []) = true
  simp [listLeads]

theorem replaceXtoXH_ne (r : String) (h : strStartsWith r "X" = true) :
    replaceXtoXH r ≠ r := by
  obtain ⟨t, ht⟩ := (strStartsWith_single_iff r 'X').mp h
  intro heq
  have hlen : (replaceXtoXH r).data.length = r.data.length := by rw [heq]
  rw [replaceXtoXH_data, ht] at hlen
  have hge := replace_fold_length_ge t
  simp at hlen
  omega

theorem strStartsWith_of_take1 (s : String) (h : strTake s 1 = "H") :
    strStartsWith s "H" = true := by
  have hd : s.data.take 1 = ['H'] := congrArg String.data h
  cases hs : s.data with
  | nil => rw [hs] at hd; exact absurd hd (by simp)
  | cons c t =>
    rw [hs] at hd
    simp at hd
    rw [strStartsWith_single_iff]
    exact ⟨t, by rw [hs, hd]⟩

theorem strStartsWith_of_take2 (s : String) (h : strTake s 2 = "XH") :
    strStartsWith s "XH" = true := by
  have hd : s.data.take 2 = ['X', 'H'] := congrArg String.data h
  cases hs : s.data with
  | nil => rw [hs] at hd; exact absurd hd (by simp)
  | cons c t =>
    cases ht : t with
    | nil => rw [hs, ht] at hd; exact absurd hd (by simp)
    | cons c2 t2 =>
      rw [hs, ht] at hd
      simp at hd
      show listLeads ('X' :: 'H' :: []) s.data = true
      rw [hs, ht, hd.1, hd.2]
      simp [listLeads]

/-! ### Characterization of the three mutation steps -/

theorem getTag_append_list (t adds : List (String × String)) {k : String}
    (h : ∀ p ∈ adds, p.1 ≠ k) : getTag (t ++ adds) k = getTag t k := by
  induction adds generalizing t with
  | nil => simp
  | cons a as ih =>
    have hsplit : t ++ a :: as = (t ++ [a]) ++ as := by simp
    rw [hsplit, ih _ (fun p hp => h p (List.mem_cons_of_mem a hp))]
    exact getTag_append_ne t a.2 (h a (List.mem_cons_self _ _))

theorem rewriteStep_not_capital {s : Stop} (r : String) (rep : Report) (e : OsmElem)
    (h : s.municipality ≠ some "Helsinki") : rewriteStep s r rep e = (rep, e) := by
  unfold rewriteStep
  rw [if_neg h]

theorem rewriteStep_x {s : Stop} {r : String} (rep : Report) (e : OsmElem)
    (hm : s.municipality = some "Helsinki")
    (h1 : strStartsWith r "X" = true) (h2 : strStartsWith r "XH" = false) :
    rewriteStep s r rep e =
      ({ rep with prefixed := rep.prefixed + 1 }, update_tag e "ref" (replaceXtoXH r)) := by
  unfold rewriteStep
  simp [hm, h1, h2]

theorem rewriteStep_prepend {s : Stop} {r : String} (rep : Report) (e : OsmElem)
    (hm : s.municipality = some "Helsinki")
    (h1 : strStartsWith r "H" = false) (h2 : strStartsWith r "X" = false) :
    rewriteStep s r rep e =
      ({ rep with prefixed := rep.prefixed + 1 }, update_tag e "ref" ("H" ++ r)) := by
  unfold rewriteStep
  simp [hm, h1, h2]

theorem strStartsWith_X_of_H (r : String) (h : strStartsWith r "H" = true) :
    strStartsWith r "X" = false := by
  have hH : strStartsWith r ⟨['H']⟩ = true := h
  have := strStartsWith_ne_char r (by decide : 'H' ≠ 'X') hH
  exact this

theorem rewriteStep_keep {s : Stop} {r : String} (rep : Report) (e : OsmElem)
    (hm : s.municipality = some "Helsinki")
    (h : strStartsWith r "H" = true ∨ strStartsWith r "XH" = true) :
    rewriteStep s r rep e = (rep, e) := by
  unfold rewriteStep
  rcases h with hH | hXH
  · have hX : strStartsWith r "X" = false := strStartsWith_X_of_H r hH
    simp [hm, hX, hH]
  · have hX : strStartsWith r "X" = true := strStartsWith_X_of_XH r hXH
    simp [hm, hX, hXH]

theorem shelterStep_create_yes {s : Stop} {osm_tags : List (String × String)}
    {st : Option String} {kind : String} (loc : String) (rep : Report) (e : OsmElem)
    (h1 : getTag osm_tags "shelter" = none) (h2 : kind ≠ "relation")
    (h3 : st ≠ some "stop_position") (h4 : s.shelter = "yes") :
    shelterStep s osm_tags st kind loc rep e =
      ({ rep with sheltered_yes := rep.sheltered_yes + 1 }, create_tag e "shelter" "yes") := by
  unfold shelterStep
  rw [if_pos ⟨h1, h2, h3⟩, if_pos h4]

theorem shelterStep_create_no {s : Stop} {osm_tags : List (String × String)}
    {st : Option String} {kind : String} (loc : String) (rep : Report) (e : OsmElem)
    (h1 : getTag osm_tags "shelter" = none) (h2 : kind ≠ "relation")
    (h3 : st ≠ some "stop_position") (h4 : s.shelter = "no") :
    shelterStep s osm_tags st kind loc rep e =
      ({ rep with sheltered_no := rep.sheltered_no + 1 }, create_tag e "shelter" "no") := by
  unfold shelterStep
  rw [if_pos ⟨h1, h2, h3⟩]
  rw [if_neg (by rw [h4]; decide), if_pos h4]

theorem shelterStep_nodata {s : Stop} {osm_tags : List (String × String)}
    {st : Option String} {kind : String} (loc : String) (rep : Report) (e : OsmElem)
    (h1 : getTag osm_tags "shelter" = none) (h2 : kind ≠ "relation")
    (h3 : st ≠ some "stop_position") (h4 : s.shelter = "unknown") :
    shelterStep s osm_tags st kind loc rep e =
      ({ rep with shelter_nodata := rep.shelter_nodata + 1 }, e) := by
  unfold shelterStep
  rw [if_pos ⟨h1, h2, h3⟩]
  rw [if_neg (by rw [h4]; decide), if_neg (by rw [h4]; decide), if_pos h4]

theorem shelterStep_conflict {s : Stop} {osm_tags : List (String × String)}
    {st : Option String} {kind : String} (loc : String) (rep : Report) (e : OsmElem)
    {v : String} (h1 : getTag osm_tags "shelter" = some v)
    (h2 : s.shelter ≠ "unknown") (h3 : s.shelter ≠ v) :
    shelterStep s osm_tags st kind loc rep e =
      ({ rep with conflicts := rep.conflicts ++ [⟨s.id, s.stop_id, s.shelter, v, loc⟩] }, e) := by
  unfold shelterStep
  rw [if_neg (by rw [h1]; rintro ⟨hc, -, -⟩; exact Option.noConfusion hc)]
  rw [if_pos ⟨by rw [h1]; rfl, h2, by rw [h1]; exact fun hc => h3 (Option.some_injective _ hc)⟩]
  rw [h1]
  rfl

theorem shelterStep_snd_of_not_create {s : Stop} {osm_tags : List (String × String)}
    {st : Option String} {kind : String} (loc : String) (rep : Report) (e : OsmElem)
    (h : ¬ (getTag osm_tags "shelter" = none ∧ kind ≠ "relation" ∧
        st ≠ some "stop_position" ∧ (s.shelter = "yes" ∨ s.shelter = "no"))) :
    (shelterStep s osm_tags st kind loc rep e).2 = e := by
  unfold shelterStep
  split_ifs with hA hy hn hu hB
  · exact absurd ⟨hA.1, hA.2.1, hA.2.2, Or.inl hy⟩ h
  · exact absurd ⟨hA.1, hA.2.1, hA.2.2, Or.inr hn⟩ h
  · rfl
  · rfl
  · rfl
  · rfl

theorem shelterStep_snd_cases (s : Stop) (osm_tags : List (String × String))
    (st : Option String) (kind loc : String) (rep : Report) (e : OsmElem) :
    (shelterStep s osm_tags st kind loc rep e).2 = e ∨
      ((shelterStep s osm_tags st kind loc rep e).2 = create_tag e "shelter" s.shelter ∧
        getTag osm_tags "shelter" = none ∧ (s.shelter = "yes" ∨ s.shelter = "no")) := by
  by_cases h : getTag osm_tags "shelter" = none ∧ kind ≠ "relation" ∧
      st ≠ some "stop_position" ∧ (s.shelter = "yes" ∨ s.shelter = "no")
  · right
    rcases h.2.2.2 with hy | hn
    · rw [shelterStep_create_yes loc rep e h.1 h.2.1 h.2.2.1 hy, hy]
      exact ⟨rfl, h.1, Or.inl rfl⟩
    · rw [shelterStep_create_no loc rep e h.1 h.2.1 h.2.2.1 hn, hn]
      exact ⟨rfl, h.1, Or.inr rfl⟩
  · exact Or.inl (shelterStep_snd_of_not_create loc rep e h)

theorem mem_ite_singleton {α : Type} {p : α} {c : Prop} [Decidable c] {a : α}
    (h : p ∈ (if c then [a] else [])) : p = a := by
  split at h
  · simpa using h
  · simp at h


theorem getTag_append_ite_ne (t : List (String × String)) (c : Prop) [Decidable c]
    {k k' : String} (v : String) (h : k' ≠ k) :
    getTag (t ++ (if c then [(k', v)] else [])) k = getTag t k := by
  split
  · exact getTag_append_ne t v h
  · simp

theorem ne_fi_name : ("name:fi" : String) ≠ "name" := by decide

theorem ne_sv_name : ("name:sv" : String) ≠ "name" := by decide

theorem ne_name_fi : ("name" : String) ≠ "name:fi" := by decide

theorem ne_sv_fi : ("name:sv" : String) ≠ "name:fi" := by decide

theorem ne_name_sv : ("name" : String) ≠ "name:sv" := by decide

theorem ne_fi_sv : ("name:fi" : String) ≠ "name:sv" := by decide

theorem add_stop_name_tags_shape (rep : Report) (e : OsmElem) (s : Stop) :
    (add_stop_name rep e s).2.tags =
      ((e.tags ++ (if getTag e.tags "name" = none then [("name", s.name)] else [])) ++
        (if getTag e.tags "name:fi" = none then [("name:fi", s.name)] else [])) ++
        (if getTag e.tags "name:sv" = none then [("name:sv", s.name_sv)] else []) := by
  unfold add_stop_name
  by_cases h1 : getTag e.tags "name" = none <;>
    by_cases h2 : getTag e.tags "name:fi" = none <;>
      by_cases h3 : getTag e.tags "name:sv" = none <;>
        simp [h1, h2, h3, create_tag]

theorem add_stop_name_snd_kind (rep : Report) (e : OsmElem) (s : Stop) :
    (add_stop_name rep e s).2.kind = e.kind := by
  unfold add_stop_name
  by_cases h1 : getTag e.tags "name" = none <;>
    by_cases h2 : getTag e.tags "name:fi" = none <;>
      by_cases h3 : getTag e.tags "name:sv" = none <;>
        simp [h1, h2, h3, create_tag]

theorem add_stop_name_snd_eid (rep : Report) (e : OsmElem) (s : Stop) :
    (add_stop_name rep e s).2.eid = e.eid := by
  unfold add_stop_name
  by_cases h1 : getTag e.tags "name" = none <;>
    by_cases h2 : getTag e.tags "name:fi" = none <;>
      by_cases h3 : getTag e.tags "name:sv" = none <;>
        simp [h1, h2, h3, create_tag]

theorem add_stop_name_snd_coords (rep : Report) (e : OsmElem) (s : Stop) :
    (add_stop_name rep e s).2.coords = e.coords := by
  unfold add_stop_name
  by_cases h1 : getTag e.tags "name" = none <;>
    by_cases h2 : getTag e.tags "name:fi" = none <;>
      by_cases h3 : getTag e.tags "name:sv" = none <;>
        simp [h1, h2, h3, create_tag]

theorem add_stop_name_getTag_other (rep : Report) (e : OsmElem) (s : Stop) {k : String}
    (h1 : k ≠ "name") (h2 : k ≠ "name:fi") (h3 : k ≠ "name:sv") :
    getTag (add_stop_name rep e s).2.tags k = getTag e.tags k := by
  rw [add_stop_name_tags_shape, getTag_append_ite_ne _ _ _ (Ne.symm h3),
    getTag_append_ite_ne _ _ _ (Ne.symm h2), getTag_append_ite_ne _ _ _ (Ne.symm h1)]

theorem add_stop_name_getTag_name (rep : Report) (e : OsmElem) (s : Stop) :
    getTag (add_stop_name rep e s).2.tags "name" =
      match getTag e.tags "name" with
      | some v => some v
      | none => some s.name := by
  rw [add_stop_name_tags_shape, getTag_append_ite_ne _ _ _ ne_sv_name,
    getTag_append_ite_ne _ _ _ ne_fi_name]
  by_cases hv : getTag e.tags "name" = none
  · rw [hv, if_pos rfl, getTag_append_self]
  · obtain ⟨v, hv'⟩ := Option.ne_none_iff_exists'.mp hv
    rw [hv', if_neg (by simp), List.append_nil]
    exact hv'

theorem add_stop_name_getTag_fi (rep : Report) (e : OsmElem) (s : Stop) :
    getTag (add_stop_name rep e s).2.tags "name:fi" =
      match getTag e.tags "name:fi" with
      | some v => some v
      | none => some s.name := by
  rw [add_stop_name_tags_shape, getTag_append_ite_ne _ _ _ ne_sv_fi]
  by_cases hv : getTag e.tags "name:fi" = none
  · rw [hv, if_pos rfl, getTag_append_self]
  · obtain ⟨v, hv'⟩ := Option.ne_none_iff_exists'.mp hv
    have hite : (if getTag e.tags "name:fi" = none then [("name:fi", s.name)] else []) = [] := by
      rw [hv']
      simp
    rw [hite, List.append_nil, getTag_append_ite_ne _ _ _ ne_name_fi, hv']

theorem add_stop_name_getTag_sv (rep : Report) (e : OsmElem) (s : Stop) :
    getTag (add_stop_name rep e s).2.tags "name:sv" =
      match getTag e.tags "name:sv" with
      | some v => some v
      | none => some s.name_sv := by
  rw [add_stop_name_tags_shape]
  by_cases hv : getTag e.tags "name:sv" = none
  · rw [hv, if_pos rfl, getTag_append_self]
  · obtain ⟨v, hv'⟩ := Option.ne_none_iff_exists'.mp hv
    have hite : (if getTag e.tags "name:sv" = none then [("name:sv", s.name_sv)] else []) = [] := by
      rw [hv']
      simp
    rw [hite, List.append_nil, getTag_append_ite_ne _ _ _ ne_fi_sv,
      getTag_append_ite_ne _ _ _ ne_name_sv, hv']

/-! ### Path lemmas for one element of the reconciliation loop -/

theorem processElem_skip (dist : Stop → Option (Int × Int) → Nat) (stops : List Stop)
    (e : OsmElem) (h : getTag e.tags "ref" = none) :
    processElem dist stops e = (Report.zero, e) := by
  unfold processElem
  rw [h]

theorem processElem_skip_empty (dist : Stop → Option (Int × Int) → Nat) (stops : List Stop)
    (e : OsmElem) (h : getTag e.tags "ref" = some "") :
    processElem dist stops e = (Report.zero, e) := by
  unfold processElem
  rw [h]
  simp

theorem processElem_nomatch (dist : Stop → Option (Int × Int) → Nat) (stops : List Stop)
    (e : OsmElem) {r : String} (h1 : getTag e.tags "ref" = some r) (h2 : r ≠ "")
    (h3 : matchChain stops r = none) :
    processElem dist stops e =
      ({ Report.zero with all_osm_refs := [r], missing := [(r, locatorOf e)] }, e) := by
  unfold processElem
  rw [h1]
  simp only [if_neg h2]
  rw [h3]

theorem processElem_invalid (dist : Stop → Option (Int × Int) → Nat) (stops : List Stop)
    (e : OsmElem) {r : String} {s : Stop} (h1 : getTag e.tags "ref" = some r) (h2 : r ≠ "")
    (h3 : matchChain stops r = some s) (h4 : s.valid_route_and_timetable = false) :
    processElem dist stops e =
      ({ Report.zero with all_osm_refs := [r], missing := [(r, locatorOf e)] }, e) := by
  unfold processElem
  rw [h1]
  simp only [if_neg h2]
  rw [h3]
  simp [h4]

theorem processElem_guardfail (dist : Stop → Option (Int × Int) → Nat) (stops : List Stop)
    (e : OsmElem) {r : String} {s : Stop} (h1 : getTag e.tags "ref" = some r) (h2 : r ≠ "")
    (h3 : matchChain stops r = some s) (h4 : s.valid_route_and_timetable = true)
    (h5 : matchGuard r s = false) :
    processElem dist stops e = ({ Report.zero with all_osm_refs := [r] }, e) := by
  unfold processElem
  rw [h1]
  simp only [if_neg h2]
  rw [h3]
  simp [h4, h5]

theorem processElem_outofrange (dist : Stop → Option (Int × Int) → Nat) (stops : List Stop)
    (e : OsmElem) {r : String} {s : Stop} (h1 : getTag e.tags "ref" = some r) (h2 : r ≠ "")
    (h3 : matchChain stops r = some s) (h4 : s.valid_route_and_timetable = true)
    (h5 : matchGuard r s = true)
    (h6 : ¬ (if e.kind = "node" then dist s e.coords else 0) < 100) :
    processElem dist stops e =
      ({ matchedReport r with
          not_within_max_distance := 1
          out_of_range := [⟨s.id, s.stop_id,
            (if e.kind = "node" then dist s e.coords else 0), locatorOf e⟩] }, e) := by
  unfold processElem
  rw [h1]
  simp only [if_neg h2]
  rw [h3]
  simp [h4, h5, h6]

theorem processElem_inrange (dist : Stop → Option (Int × Int) → Nat) (stops : List Stop)
    (e : OsmElem) {r : String} {s : Stop} (h1 : getTag e.tags "ref" = some r) (h2 : r ≠ "")
    (h3 : matchChain stops r = some s) (h4 : s.valid_route_and_timetable = true)
    (h5 : matchGuard r s = true)
    (h6 : (if e.kind = "node" then dist s e.coords else 0) < 100) :
    processElem dist stops e = applyMutations s r (matchedReport r) e := by
  unfold processElem
  rw [h1]
  simp only [if_neg h2]
  rw [h3]
  simp [h4, h5, h6]

/-! ### Transport lemmas through the mutation phase -/

theorem applyMutations_def (s : Stop) (r : String) (rep : Report) (e : OsmElem) :
    applyMutations s r rep e =
      (if getTag e.tags "name" = none ∨ getTag e.tags "name:fi" = none ∨
          getTag e.tags "name:sv" = none then
        add_stop_name
          (shelterStep s e.tags (stoptypeOf e.tags) e.kind (locatorOf e)
            (rewriteStep s r rep e).1 (rewriteStep s r rep e).2).1
          (shelterStep s e.tags (stoptypeOf e.tags) e.kind (locatorOf e)
            (rewriteStep s r rep e).1 (rewriteStep s r rep e).2).2 s
      else
        shelterStep s e.tags (stoptypeOf e.tags) e.kind (locatorOf e)
          (rewriteStep s r rep e).1 (rewriteStep s r rep e).2) := rfl

theorem shelterStep_getTag_not_shelter (s : Stop) (osm_tags : List (String × String))
    (st : Option String) (kind loc : String) (rep : Report) (e : OsmElem) {k : String}
    (hk : k ≠ "shelter") :
    getTag (shelterStep s osm_tags st kind loc rep e).2.tags k = getTag e.tags k := by
  rcases shelterStep_snd_cases s osm_tags st kind loc rep e with h | ⟨h, -, -⟩ <;> rw [h]
  exact getTag_create_ne e _ (Ne.symm hk)

theorem rewriteStep_snd_kind (s : Stop) (r : String) (rep : Report) (e : OsmElem) :
    (rewriteStep s r rep e).2.kind = e.kind := by
  unfold rewriteStep
  split_ifs <;> rfl

theorem rewriteStep_snd_coords (s : Stop) (r : String) (rep : Report) (e : OsmElem) :
    (rewriteStep s r rep e).2.coords = e.coords := by
  unfold rewriteStep
  split_ifs <;> rfl

theorem rewriteStep_snd_eid (s : Stop) (r : String) (rep : Report) (e : OsmElem) :
    (rewriteStep s r rep e).2.eid = e.eid := by
  unfold rewriteStep
  split_ifs <;> rfl

theorem shelterStep_snd_kind (s : Stop) (osm_tags : List (String × String))
    (st : Option String) (kind loc : String) (rep : Report) (e : OsmElem) :
    (shelterStep s osm_tags st kind loc rep e).2.kind = e.kind := by
  rcases shelterStep_snd_cases s osm_tags st kind loc rep e with h | ⟨h, -, -⟩ <;> rw [h]
  rfl

theorem shelterStep_snd_coords (s : Stop) (osm_tags : List (String × String))
    (st : Option String) (kind loc : String) (rep : Report) (e : OsmElem) :
    (shelterStep s osm_tags st kind loc rep e).2.coords = e.coords := by
  rcases shelterStep_snd_cases s osm_tags st kind loc rep e with h | ⟨h, -, -⟩ <;> rw [h]
  rfl

theorem shelterStep_snd_eid (s : Stop) (osm_tags : List (String × String))
    (st : Option String) (kind loc : String) (rep : Report) (e : OsmElem) :
    (shelterStep s osm_tags st kind loc rep e).2.eid = e.eid := by
  rcases shelterStep_snd_cases s osm_tags st kind loc rep e with h | ⟨h, -, -⟩ <;> rw [h]
  rfl

theorem rewriteStep_getTag_not_ref (s : Stop) (r : String) (rep : Report) (e : OsmElem)
    {k : String} (hk : k ≠ "ref") :
    getTag (rewriteStep s r rep e).2.tags k = getTag e.tags k := by
  unfold rewriteStep
  split_ifs <;> first
    | rfl
    | exact getTag_update_tag_ne e "ref" _ hk

theorem applyMutations_snd_kind (s : Stop) (r : String) (rep : Report) (e : OsmElem) :
    (applyMutations s r rep e).2.kind = e.kind := by
  rw [applyMutations_def]
  split
  · rw [add_stop_name_snd_kind, shelterStep_snd_kind, rewriteStep_snd_kind]
  · rw [shelterStep_snd_kind, rewriteStep_snd_kind]

theorem applyMutations_snd_coords (s : Stop) (r : String) (rep : Report) (e : OsmElem) :
    (applyMutations s r rep e).2.coords = e.coords := by
  rw [applyMutations_def]
  split
  · rw [add_stop_name_snd_coords, shelterStep_snd_coords, rewriteStep_snd_coords]
  · rw [shelterStep_snd_coords, rewriteStep_snd_coords]

theorem applyMutations_snd_eid (s : Stop) (r : String) (rep : Report) (e : OsmElem) :
    (applyMutations s r rep e).2.eid = e.eid := by
  rw [applyMutations_def]
  split
  · rw [add_stop_name_snd_eid, shelterStep_snd_eid, rewriteStep_snd_eid]
  · rw [shelterStep_snd_eid, rewriteStep_snd_eid]

theorem applyMutations_getTag_ref (s : Stop) (r : String) (rep : Report) (e : OsmElem) :
    getTag (applyMutations s r rep e).2.tags "ref" =
      getTag (rewriteStep s r rep e).2.tags "ref" := by
  rw [applyMutations_def]
  split
  · rw [add_stop_name_getTag_other _ _ _ (by decide) (by decide) (by decide),
      shelterStep_getTag_not_shelter _ _ _ _ _ _ _ (by decide)]
  · rw [shelterStep_getTag_not_shelter _ _ _ _ _ _ _ (by decide)]

theorem applyMutations_getTag_other (s : Stop) (r : String) (rep : Report) (e : OsmElem)
    {k : String} (h1 : k ≠ "name") (h2 : k ≠ "name:fi") (h3 : k ≠ "name:sv")
    (h4 : k ≠ "shelter") (h5 : k ≠ "ref") :
    getTag (applyMutations s r rep e).2.tags k = getTag e.tags k := by
  rw [applyMutations_def]
  split
  · rw [add_stop_name_getTag_other _ _ _ h1 h2 h3,
      shelterStep_getTag_not_shelter _ _ _ _ _ _ _ h4, rewriteStep_getTag_not_ref _ _ _ _ h5]
  · rw [shelterStep_getTag_not_shelter _ _ _ _ _ _ _ h4,
      rewriteStep_getTag_not_ref _ _ _ _ h5]

theorem applyMutations_getTag_shelter (s : Stop) (r : String) (rep : Report) (e : OsmElem) :
    getTag (applyMutations s r rep e).2.tags "shelter" =
      getTag (shelterStep s e.tags (stoptypeOf e.tags) e.kind (locatorOf e)
        (rewriteStep s r rep e).1 (rewriteStep s r rep e).2).2.tags "shelter" := by
  rw [applyMutations_def]
  split
  · rw [add_stop_name_getTag_other _ _ _ (by decide) (by decide) (by decide)]
  · rfl

theorem applyMutations_getTag_name (s : Stop) (r : String) (rep : Report) (e : OsmElem) :
    getTag (applyMutations s r rep e).2.tags "name" =
      match getTag e.tags "name" with
      | some v => some v
      | none => some s.name := by
  rw [applyMutations_def]
  have htrans : getTag (shelterStep s e.tags (stoptypeOf e.tags) e.kind (locatorOf e)
      (rewriteStep s r rep e).1 (rewriteStep s r rep e).2).2.tags "name" =
      getTag e.tags "name" := by
    rw [shelterStep_getTag_not_shelter _ _ _ _ _ _ _ (by decide),
      rewriteStep_getTag_not_ref _ _ _ _ (by decide)]
  split
  · rw [add_stop_name_getTag_name, htrans]
  · rename_i hcond
    push_neg at hcond
    rw [htrans]
    cases hv : getTag e.tags "name" with
    | none => exact absurd hv hcond.1
    | some v => rfl

theorem applyMutations_getTag_fi (s : Stop) (r : String) (rep : Report) (e : OsmElem) :
    getTag (applyMutations s r rep e).2.tags "name:fi" =
      match getTag e.tags "name:fi" with
      | some v => some v
      | none => some s.name := by
  rw [applyMutations_def]
  have htrans : getTag (shelterStep s e.tags (stoptypeOf e.tags) e.kind (locatorOf e)
      (rewriteStep s r rep e).1 (rewriteStep s r rep e).2).2.tags "name:fi" =
      getTag e.tags "name:fi" := by
    rw [shelterStep_getTag_not_shelter _ _ _ _ _ _ _ (by decide),
      rewriteStep_getTag_not_ref _ _ _ _ (by decide)]
  split
  · rw [add_stop_name_getTag_fi, htrans]
  · rename_i hcond
    push_neg at hcond
    rw [htrans]
    cases hv : getTag e.tags "name:fi" with
    | none => exact absurd hv hcond.2.1
    | some v => rfl

theorem applyMutations_getTag_sv (s : Stop) (r : String) (rep : Report) (e : OsmElem) :
    getTag (applyMutations s r rep e).2.tags "name:sv" =
      match getTag e.tags "name:sv" with
      | some v => some v
      | none => some s.name_sv := by
  rw [applyMutations_def]
  have htrans : getTag (shelterStep s e.tags (stoptypeOf e.tags) e.kind (locatorOf e)
      (rewriteStep s r rep e).1 (rewriteStep s r rep e).2).2.tags "name:sv" =
      getTag e.tags "name:sv" := by
    rw [shelterStep_getTag_not_shelter _ _ _ _ _ _ _ (by decide),
      rewriteStep_getTag_not_ref _ _ _ _ (by decide)]
  split
  · rw [add_stop_name_getTag_sv, htrans]
  · rename_i hcond
    push_neg at hcond
    rw [htrans]
    cases hv : getTag e.tags "name:sv" with
    | none => exact absurd hv hcond.2.2
    | some v => rfl

/-! ### Report-side lemmas for the mutation phase -/

theorem rewriteStep_fst_cases (s : Stop) (r : String) (rep : Report) (e : OsmElem) :
    (rewriteStep s r rep e).1 = rep ∨
      (rewriteStep s r rep e).1 = { rep with prefixed := rep.prefixed + 1 } := by
  unfold rewriteStep
  split_ifs <;> simp

theorem add_stop_name_fst (rep : Report) (e : OsmElem) (s : Stop) :
    (add_stop_name rep e s).1 =
      { rep with
          named := rep.named + (if getTag e.tags "name" = none then 1 else 0)
          named_fi := rep.named_fi + (if getTag e.tags "name:fi" = none then 1 else 0)
          named_sv := rep.named_sv + (if getTag e.tags "name:sv" = none then 1 else 0) } := by
  unfold add_stop_name
  by_cases h1 : getTag e.tags "name" = none <;>
    by_cases h2 : getTag e.tags "name:fi" = none <;>
      by_cases h3 : getTag e.tags "name:sv" = none <;>
        simp [h1, h2, h3]

theorem shelterStep_fst_cases (s : Stop) (osm_tags : List (String × String))
    (st : Option String) (kind loc : String) (rep : Report) (e : OsmElem) :
    (shelterStep s osm_tags st kind loc rep e).1 = rep ∨
      (shelterStep s osm_tags st kind loc rep e).1 =
        { rep with sheltered_yes := rep.sheltered_yes + 1 } ∨
      (shelterStep s osm_tags st kind loc rep e).1 =
        { rep with sheltered_no := rep.sheltered_no + 1 } ∨
      (shelterStep s osm_tags st kind loc rep e).1 =
        { rep with shelter_nodata := rep.shelter_nodata + 1 } ∨
      (shelterStep s osm_tags st kind loc rep e).1 =
        { rep with conflicts := rep.conflicts ++
            [⟨s.id, s.stop_id, s.shelter, (getTag osm_tags "shelter").getD "", loc⟩] } := by
  unfold shelterStep
  split_ifs <;> simp

theorem add_stop_name_fst_prefixed (rep : Report) (e : OsmElem) (s : Stop) :
    (add_stop_name rep e s).1.prefixed = rep.prefixed := by
  rw [add_stop_name_fst]

theorem shelterStep_fst_prefixed (s : Stop) (osm_tags : List (String × String))
    (st : Option String) (kind loc : String) (rep : Report) (e : OsmElem) :
    (shelterStep s osm_tags st kind loc rep e).1.prefixed = rep.prefixed := by
  rcases shelterStep_fst_cases s osm_tags st kind loc rep e with h | h | h | h | h <;> rw [h]

theorem applyMutations_fst_prefixed (s : Stop) (r : String) (rep : Report) (e : OsmElem) :
    (applyMutations s r rep e).1.prefixed = (rewriteStep s r rep e).1.prefixed := by
  rw [applyMutations_def]
  split
  · rw [add_stop_name_fst_prefixed, shelterStep_fst_prefixed]
  · rw [shelterStep_fst_prefixed]

theorem rewriteStep_fst_only_prefixed (s : Stop) (r : String) (rep : Report) (e : OsmElem) :
    (rewriteStep s r rep e).1.matched = rep.matched ∧
    (rewriteStep s r rep e).1.sheltered_yes = rep.sheltered_yes ∧
    (rewriteStep s r rep e).1.sheltered_no = rep.sheltered_no ∧
    (rewriteStep s r rep e).1.shelter_nodata = rep.shelter_nodata ∧
    (rewriteStep s r rep e).1.conflicts = rep.conflicts ∧
    (rewriteStep s r rep e).1.named = rep.named ∧
    (rewriteStep s r rep e).1.named_fi = rep.named_fi ∧
    (rewriteStep s r rep e).1.named_sv = rep.named_sv ∧
    (rewriteStep s r rep e).1.missing = rep.missing ∧
    (rewriteStep s r rep e).1.not_within_max_distance = rep.not_within_max_distance ∧
    (rewriteStep s r rep e).1.out_of_range = rep.out_of_range ∧
    (rewriteStep s r rep e).1.all_osm_refs = rep.all_osm_refs := by
  rcases rewriteStep_fst_cases s r rep e with h | h <;> rw [h] <;> exact ⟨rfl, rfl, rfl, rfl,
    rfl, rfl, rfl, rfl, rfl, rfl, rfl, rfl⟩

theorem add_stop_name_fst_only_named (rep : Report) (e : OsmElem) (s : Stop) :
    (add_stop_name rep e s).1.matched = rep.matched ∧
    (add_stop_name rep e s).1.prefixed = rep.prefixed ∧
    (add_stop_name rep e s).1.sheltered_yes = rep.sheltered_yes ∧
    (add_stop_name rep e s).1.sheltered_no = rep.sheltered_no ∧
    (add_stop_name rep e s).1.shelter_nodata = rep.shelter_nodata ∧
    (add_stop_name rep e s).1.conflicts = rep.conflicts ∧
    (add_stop_name rep e s).1.missing = rep.missing ∧
    (add_stop_name rep e s).1.not_within_max_distance = rep.not_within_max_distance ∧
    (add_stop_name rep e s).1.out_of_range = rep.out_of_range := by
  rw [add_stop_name_fst]
  exact ⟨rfl, rfl, rfl, rfl, rfl, rfl, rfl, rfl, rfl⟩

theorem shelterStep_fst_only_shelter (s : Stop) (osm_tags : List (String × String))
    (st : Option String) (kind loc : String) (rep : Report) (e : OsmElem) :
    (shelterStep s osm_tags st kind loc rep e).1.matched = rep.matched ∧
    (shelterStep s osm_tags st kind loc rep e).1.prefixed = rep.prefixed ∧
    (shelterStep s osm_tags st kind loc rep e).1.named = rep.named ∧
    (shelterStep s osm_tags st kind loc rep e).1.named_fi = rep.named_fi ∧
    (shelterStep s osm_tags st kind loc rep e).1.named_sv = rep.named_sv ∧
    (shelterStep s osm_tags st kind loc rep e).1.missing = rep.missing ∧
    (shelterStep s osm_tags st kind loc rep e).1.not_within_max_distance =
      rep.not_within_max_distance ∧
    (shelterStep s osm_tags st kind loc rep e).1.out_of_range = rep.out_of_range ∧
    (shelterStep s osm_tags st kind loc rep e).1.all_osm_refs = rep.all_osm_refs := by
  rcases shelterStep_fst_cases s osm_tags st kind loc rep e with h | h | h | h | h <;> rw [h] <;>
    exact ⟨rfl, rfl, rfl, rfl, rfl, rfl, rfl, rfl, rfl⟩

theorem applyMutations_fst_matched (s : Stop) (r : String) (rep : Report) (e : OsmElem) :
    (applyMutations s r rep e).1.matched = rep.matched := by
  rw [applyMutations_def]
  split
  · rw [(add_stop_name_fst_only_named _ _ _).1, (shelterStep_fst_only_shelter _ _ _ _ _ _ _).1,
      (rewriteStep_fst_only_prefixed _ _ _ _).1]
  · rw [(shelterStep_fst_only_shelter _ _ _ _ _ _ _).1,
      (rewriteStep_fst_only_prefixed _ _ _ _).1]

/-! ### Support lemmas for matching and the second-run analysis -/

theorem matchGuard_of_exact {r : String} {s : Stop} (h : r = s.stop_id) :
    matchGuard r s = true := by
  simp [matchGuard, h]

theorem indexGet_mem {stops : List Stop} {k : String} {s : Stop}
    (h : indexGet stops k = some s) : s ∈ stops := by
  unfold indexGet at h
  exact List.mem_reverse.mp (List.mem_of_find?_eq_some h)

theorem matchChain_mem {stops : List Stop} {r : String} {s : Stop}
    (h : matchChain stops r = some s) : s ∈ stops := by
  unfold matchChain at h
  cases h1 : indexGet stops r with
  | some t =>
    rw [h1] at h
    exact indexGet_mem (h1.trans h)
  | none =>
    rw [h1] at h
    cases h2 : indexGet stops ("H" ++ r) with
    | some t =>
      rw [h2] at h
      exact indexGet_mem (h2.trans h)
    | none =>
      rw [h2] at h
      exact indexGet_mem h

theorem registryWF_spec {stops : List Stop} (hwf : registryWF stops = true) {s : Stop}
    (hs : s ∈ stops) :
    (s.municipality = some "Helsinki") ↔
      (strTake s.stop_id 1 = "H" ∨ strTake s.stop_id 2 = "XH") := by
  unfold registryWF at hwf
  rw [List.all_eq_true] at hwf
  exact of_decide_eq_true (hwf s hs)

theorem registryWF_mkStop (stops : List Stop)
    (h : ∀ s ∈ stops, ∃ i sid n nsv la lo sp rv av, s = mkStop i sid n nsv la lo sp rv av) :
    registryWF stops = true := by
  unfold registryWF
  rw [List.all_eq_true]
  intro s hs
  obtain ⟨i, sid, n, nsv, la, lo, sp, rv, av, hmk⟩ := h s hs
  subst hmk
  apply decide_eq_true
  unfold mkStop
  dsimp only
  by_cases hc : strTake sid 1 = "H" ∨ strTake sid 2 = "XH"
  · simp [hc]
  · simp [hc]

theorem H_append_ne_empty (r : String) : ("H" ++ r) ≠ "" := by
  intro h
  have h2 : ('H' :: r.data : List Char) = [] := congrArg String.data h
  exact List.noConfusion h2

theorem replaceXtoXH_ne_empty (r : String) (hX : strStartsWith r "X" = true) :
    replaceXtoXH r ≠ "" := by
  obtain ⟨t, ht⟩ := (strStartsWith_single_iff r 'X').mp hX
  intro h
  have h2 : (replaceXtoXH r).data = [] := congrArg String.data h
  rw [replaceXtoXH_data, ht] at h2
  simp at h2

theorem keep_conditions {r : String}
    (h1 : ¬ (strStartsWith r "X" = true ∧ strStartsWith r "XH" = false))
    (h2 : ¬ (strStartsWith r "H" = false ∧ strStartsWith r "X" = false)) :
    strStartsWith r "H" = true ∨ strStartsWith r "XH" = true := by
  by_cases hH : strStartsWith r "H" = true
  · exact Or.inl hH
  · have hHf : strStartsWith r "H" = false := by
      cases hv : strStartsWith r "H"
      · rfl
      · exact absurd hv hH
    have hX : strStartsWith r "X" = true := by
      by_contra hXf
      have : strStartsWith r "X" = false := by
        cases hv : strStartsWith r "X"
        · rfl
        · exact absurd hv hXf
      exact h2 ⟨hHf, this⟩
    have hXH : strStartsWith r "XH" = true := by
      by_contra hXHf
      have : strStartsWith r "XH" = false := by
        cases hv : strStartsWith r "XH"
        · rfl
        · exact absurd hv hXHf
      exact h1 ⟨hX, this⟩
    exact Or.inr hXH

theorem applyMutations_stoptype (s : Stop) (r : String) (rep : Report) (e : OsmElem) :
    stoptypeOf (applyMutations s r rep e).2.tags = stoptypeOf e.tags := by
  apply stoptypeOf_congr <;>
    exact applyMutations_getTag_other s r rep e (by decide) (by decide) (by decide)
      (by decide) (by decide)

theorem applyMutations_name_isSome (s : Stop) (r : String) (rep : Report) (e : OsmElem) :
    getTag (applyMutations s r rep e).2.tags "name" ≠ none := by
  rw [applyMutations_getTag_name]
  cases getTag e.tags "name" <;> simp

theorem applyMutations_fi_isSome (s : Stop) (r : String) (rep : Report) (e : OsmElem) :
    getTag (applyMutations s r rep e).2.tags "name:fi" ≠ none := by
  rw [applyMutations_getTag_fi]
  cases getTag e.tags "name:fi" <;> simp

theorem applyMutations_sv_isSome (s : Stop) (r : String) (rep : Report) (e : OsmElem) :
    getTag (applyMutations s r rep e).2.tags "name:sv" ≠ none := by
  rw [applyMutations_getTag_sv]
  cases getTag e.tags "name:sv" <;> simp

theorem applyMutations_shelter_cases (s : Stop) (r : String) (rep : Report) (e : OsmElem) :
    getTag (applyMutations s r rep e).2.tags "shelter" = getTag e.tags "shelter" ∨
      (getTag (applyMutations s r rep e).2.tags "shelter" = some s.shelter ∧
        getTag e.tags "shelter" = none ∧ (s.shelter = "yes" ∨ s.shelter = "no")) := by
  rw [applyMutations_getTag_shelter]
  rcases shelterStep_snd_cases s e.tags (stoptypeOf e.tags) e.kind (locatorOf e)
      (rewriteStep s r rep e).1 (rewriteStep s r rep e).2 with h | ⟨h, hsnap, hyn⟩
  · left
    rw [h]
    exact rewriteStep_getTag_not_ref s r rep e (by decide)
  · right
    rw [h, getTag_create_self]
    exact ⟨rfl, hsnap, hyn⟩

theorem second_shelter_blocked (s : Stop) (r : String) (rep : Report) (e : OsmElem) :
    ¬ (getTag (applyMutations s r rep e).2.tags "shelter" = none ∧
        (applyMutations s r rep e).2.kind ≠ "relation" ∧
        stoptypeOf (applyMutations s r rep e).2.tags ≠ some "stop_position" ∧
        (s.shelter = "yes" ∨ s.shelter = "no")) := by
  rintro ⟨hnone, hkind, hst, hyn⟩
  rcases applyMutations_shelter_cases s r rep e with hsame | ⟨hsome, -, -⟩
  · have h0 : getTag e.tags "shelter" = none := hsame ▸ hnone
    have hk0 : e.kind ≠ "relation" := by
      rw [← applyMutations_snd_kind s r rep e]
      exact hkind
    have hst0 : stoptypeOf e.tags ≠ some "stop_position" := by
      rw [← applyMutations_stoptype s r rep e]
      exact hst
    rcases hyn with hy | hn
    · have hcre : getTag (applyMutations s r rep e).2.tags "shelter" = some "yes" := by
        rw [applyMutations_getTag_shelter,
          shelterStep_create_yes _ _ _ h0 hk0 hst0 hy, getTag_create_self]
      rw [hcre] at hnone
      exact Option.noConfusion hnone
    · have hcre : getTag (applyMutations s r rep e).2.tags "shelter" = some "no" := by
        rw [applyMutations_getTag_shelter,
          shelterStep_create_no _ _ _ h0 hk0 hst0 hn, getTag_create_self]
      rw [hcre] at hnone
      exact Option.noConfusion hnone
  · rw [hsome] at hnone
    exact Option.noConfusion hnone

theorem applyMutations_snd_id (s : Stop) (r : String) (rep : Report) (e1 : OsmElem)
    (hrw : (rewriteStep s r rep e1).2 = e1)
    (hsh : ¬ (getTag e1.tags "shelter" = none ∧ e1.kind ≠ "relation" ∧
        stoptypeOf e1.tags ≠ some "stop_position" ∧ (s.shelter = "yes" ∨ s.shelter = "no")))
    (hn : getTag e1.tags "name" ≠ none) (hfi : getTag e1.tags "name:fi" ≠ none)
    (hsv : getTag e1.tags "name:sv" ≠ none) :
    (applyMutations s r rep e1).2 = e1 := by
  rw [applyMutations_def]
  rw [if_neg (fun hc => hc.elim hn (fun hc2 => hc2.elim hfi hsv))]
  rw [hrw]
  exact shelterStep_snd_of_not_create _ _ _ hsh

/-! ### Idempotence of the per-element pass on its own output -/

theorem processElem_snd_idem (dist : Stop → Option (Int × Int) → Nat) (stops : List Stop)
    (e : OsmElem) (hwf : registryWF stops = true)
    (hstable : secondLookupOk dist stops e = true) :
    (processElem dist stops (processElem dist stops e).2).2 = (processElem dist stops e).2 := by
  cases hr : getTag e.tags "ref" with
  | none =>
    have he1 : (processElem dist stops e).2 = e := by
      rw [processElem_skip dist stops e hr]
    rw [he1]
    exact he1
  | some r =>
    by_cases hre : r = ""
    · subst hre
      have he1 : (processElem dist stops e).2 = e := by
        rw [processElem_skip_empty dist stops e hr]
      rw [he1]
      exact he1
    · cases hc : matchChain stops r with
      | none =>
        have he1 : (processElem dist stops e).2 = e := by
          rw [processElem_nomatch dist stops e hr hre hc]
        rw [he1]
        exact he1
      | some s =>
        cases hv : s.valid_route_and_timetable with
        | false =>
          have he1 : (processElem dist stops e).2 = e := by
            rw [processElem_invalid dist stops e hr hre hc hv]
          rw [he1]
          exact he1
        | true =>
          cases hg : matchGuard r s with
          | false =>
            have he1 : (processElem dist stops e).2 = e := by
              rw [processElem_guardfail dist stops e hr hre hc hv hg]
            rw [he1]
            exact he1
          | true =>
            by_cases hd : (if e.kind = "node" then dist s e.coords else 0) < 100
            · -- matched in range: the element mutates once; a second pass is inert
              have hp1 : processElem dist stops e = applyMutations s r (matchedReport r) e :=
                processElem_inrange dist stops e hr hre hc hv hg hd
              set e1 := (applyMutations s r (matchedReport r) e).2 with he1def
              have he1 : (processElem dist stops e).2 = e1 := by rw [hp1]
              rw [he1]
              have hkind : e1.kind = e.kind := by
                rw [he1def]
                exact applyMutations_snd_kind _ _ _ _
              have hcoords : e1.coords = e.coords := by
                rw [he1def]
                exact applyMutations_snd_coords _ _ _ _
              have hn1 : getTag e1.tags "name" ≠ none := by
                rw [he1def]
                exact applyMutations_name_isSome _ _ _ _
              have hfi1 : getTag e1.tags "name:fi" ≠ none := by
                rw [he1def]
                exact applyMutations_fi_isSome _ _ _ _
              have hsv1 : getTag e1.tags "name:sv" ≠ none := by
                rw [he1def]
                exact applyMutations_sv_isSome _ _ _ _
              have hdd1 : (if e1.kind = "node" then dist s e1.coords else 0) < 100 := by
                rw [hkind, hcoords]
                exact hd
              have hsh1 : ¬ (getTag e1.tags "shelter" = none ∧ e1.kind ≠ "relation" ∧
                  stoptypeOf e1.tags ≠ some "stop_position" ∧
                  (s.shelter = "yes" ∨ s.shelter = "no")) := by
                rw [he1def]
                exact second_shelter_blocked s r (matchedReport r) e
              by_cases hm : s.municipality = some "Helsinki"
              · by_cases hB1 : strStartsWith r "X" = true ∧ strStartsWith r "XH" = false
                · -- first run substituted X -> XH in the reference
                  have href1 : getTag e1.tags "ref" = some (replaceXtoXH r) := by
                    rw [he1def, applyMutations_getTag_ref,
                      rewriteStep_x (matchedReport r) e hm hB1.1 hB1.2,
                      getTag_update_tag_self, hr]
                    rfl
                  have hr1ne : replaceXtoXH r ≠ r := replaceXtoXH_ne r hB1.1
                  have hr1nemp : replaceXtoXH r ≠ "" := replaceXtoXH_ne_empty r hB1.1
                  unfold secondLookupOk at hstable
                  rw [he1, href1, hr] at hstable
                  simp only [decide_eq_false hr1ne, Bool.false_or] at hstable
                  cases hc2 : matchChain stops (replaceXtoXH r) with
                  | none =>
                    rw [processElem_nomatch dist stops e1 href1 hr1nemp hc2]
                  | some s2 =>
                    rw [hc2] at hstable
                    simp only [Bool.and_eq_true, decide_eq_true_eq] at hstable
                    obtain ⟨hid, hcs2⟩ := hstable
                    have hs2 : s2 = s := by
                      rw [hc] at hcs2
                      exact (Option.some_injective _ hcs2).symm
                    subst hs2
                    have hg2 : matchGuard (replaceXtoXH r) s2 = true := matchGuard_of_exact hid
                    rw [processElem_inrange dist stops e1 href1 hr1nemp hc2 hv hg2
                      (by rw [hkind, hcoords]; exact hd)]
                    have hsmem : s2 ∈ stops := matchChain_mem hc
                    have hcap := (registryWF_spec hwf hsmem).mp hm
                    have hkeep2 : strStartsWith (replaceXtoXH r) "H" = true ∨
                        strStartsWith (replaceXtoXH r) "XH" = true := by
                      rcases hcap with h1 | h2
                      · left
                        rw [hid]
                        exact strStartsWith_of_take1 _ h1
                      · right
                        rw [hid]
                        exact strStartsWith_of_take2 _ h2
                    exact applyMutations_snd_id s2 (replaceXtoXH r)
                      (matchedReport (replaceXtoXH r)) e1
                      (by rw [rewriteStep_keep (matchedReport (replaceXtoXH r)) e1 hm hkeep2])
                      hsh1 hn1 hfi1 hsv1
                · by_cases hB2 : strStartsWith r "H" = false ∧ strStartsWith r "X" = false
                  · -- first run prepended H to the reference
                    have href1 : getTag e1.tags "ref" = some ("H" ++ r) := by
                      rw [he1def, applyMutations_getTag_ref,
                        rewriteStep_prepend (matchedReport r) e hm hB2.1 hB2.2,
                        getTag_update_tag_self, hr]
                      rfl
                    have hr1ne : ("H" ++ r) ≠ r := H_append_ne r
                    have hr1nemp : ("H" ++ r) ≠ "" := H_append_ne_empty r
                    unfold secondLookupOk at hstable
                    rw [he1, href1, hr] at hstable
                    simp only [decide_eq_false hr1ne, Bool.false_or] at hstable
                    cases hc2 : matchChain stops ("H" ++ r) with
                    | none =>
                      rw [processElem_nomatch dist stops e1 href1 hr1nemp hc2]
                    | some s2 =>
                      rw [hc2] at hstable
                      simp only [Bool.and_eq_true, decide_eq_true_eq] at hstable
                      obtain ⟨hid, hcs2⟩ := hstable
                      have hs2 : s2 = s := by
                        rw [hc] at hcs2
                        exact (Option.some_injective _ hcs2).symm
                      subst hs2
                      have hg2 : matchGuard ("H" ++ r) s2 = true := matchGuard_of_exact hid
                      rw [processElem_inrange dist stops e1 href1 hr1nemp hc2 hv hg2
                        (by rw [hkind, hcoords]; exact hd)]
                      have hsmem : s2 ∈ stops := matchChain_mem hc
                      have hcap := (registryWF_spec hwf hsmem).mp hm
                      have hkeep2 : strStartsWith ("H" ++ r) "H" = true ∨
                          strStartsWith ("H" ++ r) "XH" = true := by
                        rcases hcap with h1 | h2
                        · left
                          rw [hid]
                          exact strStartsWith_of_take1 _ h1
                        · right
                          rw [hid]
                          exact strStartsWith_of_take2 _ h2
                      exact applyMutations_snd_id s2 ("H" ++ r)
                        (matchedReport ("H" ++ r)) e1
                        (by rw [rewriteStep_keep (matchedReport ("H" ++ r)) e1 hm hkeep2])
                        hsh1 hn1 hfi1 hsv1
                  · -- reference already carries its prefix: no rewrite in either run
                    have hkeep : strStartsWith r "H" = true ∨ strStartsWith r "XH" = true :=
                      keep_conditions hB1 hB2
                    have href1 : getTag e1.tags "ref" = some r := by
                      rw [he1def, applyMutations_getTag_ref,
                        rewriteStep_keep (matchedReport r) e hm hkeep]
                      exact hr
                    rw [processElem_inrange dist stops e1 href1 hre hc hv hg hdd1]
                    exact applyMutations_snd_id s r (matchedReport r) e1
                      (by rw [rewriteStep_keep (matchedReport r) e1 hm hkeep])
                      hsh1 hn1 hfi1 hsv1
              · -- record outside the capital: no rewrite in either run
                have href1 : getTag e1.tags "ref" = some r := by
                  rw [he1def, applyMutations_getTag_ref, rewriteStep_not_capital r _ e hm]
                  exact hr
                rw [processElem_inrange dist stops e1 href1 hre hc hv hg hdd1]
                exact applyMutations_snd_id s r (matchedReport r) e1
                  (by rw [rewriteStep_not_capital r _ e1 hm]) hsh1 hn1 hfi1 hsv1
            · -- matched but out of the distance limit: the element is untouched
              have he1 : (processElem dist stops e).2 = e := by
                rw [processElem_outofrange dist stops e hr hre hc hv hg hd]
              rw [he1]
              exact he1

/-! ### Characterization of the matcher -/

theorem matchChain_eq_some_iff (stops : List Stop) (r : String) (s : Stop) :
    matchChain stops r = some s ↔
      (indexGet stops r = some s ∨
       (indexGet stops r = none ∧ indexGet stops ("H" ++ r) = some s) ∨
       (indexGet stops r = none ∧ indexGet stops ("H" ++ r) = none ∧
         indexGet stops ("XH" ++ strDrop r 1) = some s)) := by
  unfold matchChain
  cases h1 : indexGet stops r with
  | some t => simp
  | none =>
    cases h2 : indexGet stops ("H" ++ r) with
    | some t => simp
    | none => simp

theorem codeMatch_eq_some_iff (stops : List Stop) (r : String) (s : Stop) :
    codeMatch stops r = some s ↔ matchChain stops r = some s ∧ matchGuard r s = true := by
  unfold codeMatch
  cases hch : matchChain stops r with
  | none => simp
  | some t =>
    show (if matchGuard r t = true then some t else none) = some s ↔
      some t = some s ∧ matchGuard r s = true
    by_cases hgt : matchGuard r t = true
    · rw [if_pos hgt]
      constructor
      · intro h
        obtain rfl : t = s := Option.some_injective _ h
        exact ⟨rfl, hgt⟩
      · intro h
        obtain rfl : t = s := Option.some_injective _ h.1
        rfl
    · rw [if_neg hgt]
      constructor
      · intro h
        exact absurd h (by simp)
      · intro h
        obtain rfl : t = s := Option.some_injective _ h.1
        exact absurd h.2 hgt

/-- Claim C1 (amended): the matcher implemented by the source tries, in order,
the index keys `osm_ref`, `"H" + osm_ref` and `"XH" + osm_ref[1:]` — the third
lookup is attempted for every reference, not only for references beginning
with `"X"` but not `"XH"` — takes the record of the first key present, and
then confirms the hit with a guard: the record is returned precisely when its
key equals the reference verbatim, or the record is classified to the capital
municipality and its key with the first character removed equals the
reference, or the reference with every `"X"` substituted by `"XH"` equals the
key. A chain hit that fails the guard yields no record, and at most one record
is returned per element. -/
theorem c1_matcher_lookup_and_guard (stops : List Stop) (r : String) (s : Stop) :
    codeMatch stops r = some s ↔
      ((indexGet stops r = some s ∨
        (indexGet stops r = none ∧ indexGet stops ("H" ++ r) = some s) ∨
        (indexGet stops r = none ∧ indexGet stops ("H" ++ r) = none ∧
          indexGet stops ("XH" ++ strDrop r 1) = some s)) ∧
       (r = s.stop_id ∨ (s.municipality = some "Helsinki" ∧ r = strDrop s.stop_id 1) ∨
         replaceXtoXH r = s.stop_id)) := by
  rw [codeMatch_eq_some_iff, matchChain_eq_some_iff]
  have hguard : matchGuard r s = true ↔
      (r = s.stop_id ∨ (s.municipality = some "Helsinki" ∧ r = strDrop s.stop_id 1) ∨
        replaceXtoXH r = s.stop_id) := by
    simp [matchGuard]
  rw [hguard]

/-- Claim C1 counterexample: for the OSM reference `"XH12"` (which begins with
`"XH"`, so the claim's rule 3 must not apply, and rules 1 and 2 find no key)
against a registry containing only the record with key `"XHH12"`, the matcher
of the claim returns no record, but the matcher of the source returns the
record: the chain's third lookup `"XH" + osm_ref[1:]` fires for a reference
that does not begin with a bare `"X"`, and the guard accepts it because
substituting every `"X"` with `"XH"` in `"XH12"` yields `"XHH12"`. -/
theorem c1_counterexample :
    strStartsWith "XH12" "XH" = true ∧
    (mkStop "1" "XHH12" "N" "S" 0 0 "01" 1 1).stop_id = "XH" ++ strDrop "XH12" 1 ∧
    specMatch [mkStop "1" "XHH12" "N" "S" 0 0 "01" 1 1] "XH12" = none ∧
    codeMatch [mkStop "1" "XHH12" "N" "S" 0 0 "01" 1 1] "XH12" =
      some (mkStop "1" "XHH12" "N" "S" 0 0 "01" 1 1) := by
  decide

/-- Claim C8 (amended): a malformed registry feature is logged and aborts the
read loop, so the run continues with exactly the stops built from the longest
well-formed leading segment of the feature list; well-formed features after
the first malformed one are dropped as well. -/
theorem c8_read_aborts_at_first_malformed (fs : List RawFeature) :
    read_stop_data_geojson fs =
      (fs.takeWhile (fun f => (stopOfFeature f).isSome)).filterMap stopOfFeature := by
  induction fs with
  | nil => rfl
  | cons f rest ih =>
    cases hf : stopOfFeature f with
    | some s =>
      unfold read_stop_data_geojson
      rw [hf]
      simp [ih, List.takeWhile_cons, List.filterMap_cons, hf]
    | none =>
      unfold read_stop_data_geojson
      rw [hf]
      simp [List.takeWhile_cons, hf]

/-- Claim C8 counterexample: with the feature list (well-formed A, malformed,
well-formed B), the reader returns only the stop of A — the well-formed record
B after the failure is missing from the result, so the run does not continue
with a record set containing every well-formed record. -/
theorem c8_counterexample :
    read_stop_data_geojson
        [.good "1" "H1" "A" "B" 60 24 "01" 1 1, .malformed "KeyError",
         .good "2" "H2" "C" "D" 60 24 "01" 1 1] =
      [mkStop "1" "H1" "A" "B" 24 60 "01" 1 1] ∧
    stopOfFeature (.good "2" "H2" "C" "D" 60 24 "01" 1 1) =
      some (mkStop "2" "H2" "C" "D" 24 60 "01" 1 1) ∧
    mkStop "2" "H2" "C" "D" 24 60 "01" 1 1 ∉
      read_stop_data_geojson
        [.good "1" "H1" "A" "B" 60 24 "01" 1 1, .malformed "KeyError",
         .good "2" "H2" "C" "D" 60 24 "01" 1 1] := by
  decide

/-- Claim C9: when the output document cannot be written, the `except` handler
of `main` first prints the message built from `args.output` and then evaluates
`args.ouput` for the log line — an attribute that does not exist on the
argparse namespace — so the handler itself raises `AttributeError` and the
exception escapes the top-level run instead of being reported; when the write
succeeds, the document is saved normally. The claim describes the intended
behaviour; the misspelling `args.ouput` on the `logging.error` line is the
code bug. -/
theorem c9_write_failure_raises_in_handler :
    write_output ⟨"in.osm", "stops.geojson", "out.osm"⟩ true =
      WriteOutcome.uncaughtException
        "AttributeError: Namespace object has no attribute ouput" ∧
    write_output ⟨"in.osm", "stops.geojson", "out.osm"⟩ false =
      WriteOutcome.saved "out.osm" := by
  decide

/-- Claim C7 (amended): for an element with a non-empty reference tag, when
the lookup chain itself finds no record, or finds a record that is not
importable, the element is left untouched and its raw reference is recorded
for the missing-match report; but when the chain finds an importable record
that then fails the confirmation guard, the element is likewise left untouched
while its reference is NOT recorded — such elements silently vanish from all
reports. -/
theorem c7_unmatched_reference_handling (dist : Stop → Option (Int × Int) → Nat)
    (stops : List Stop) (e : OsmElem) (r : String)
    (h1 : getTag e.tags "ref" = some r) (h2 : r ≠ "") :
    ((matchChain stops r = none ∨
        (∃ s, matchChain stops r = some s ∧ s.valid_route_and_timetable = false)) →
      processElem dist stops e =
        ({ Report.zero with all_osm_refs := [r], missing := [(r, locatorOf e)] }, e)) ∧
    (∀ s, matchChain stops r = some s → s.valid_route_and_timetable = true →
      matchGuard r s = false →
      processElem dist stops e = ({ Report.zero with all_osm_refs := [r] }, e)) := by
  constructor
  · rintro (hn | ⟨s, hs, hv⟩)
    · exact processElem_nomatch dist stops e h1 h2 hn
    · exact processElem_invalid dist stops e h1 h2 hs hv
  · intro s hs hv hg
    exact processElem_guardfail dist stops e h1 h2 hs hv hg

/-- Claim C7 witness: a node with `ref="9999"` against an empty registry is
left untouched and its raw reference lands in the missing-match list. -/
theorem c7_witness :
    processElem (fun _ _ => 0) []
        ⟨"node", "1", some (0, 0), [("ref", "9999")], none⟩ =
      ({ Report.zero with
          all_osm_refs := ["9999"]
          missing := [("9999",
            locatorOf ⟨"node", "1", some (0, 0), [("ref", "9999")], none⟩)] },
        ⟨"node", "1", some (0, 0), [("ref", "9999")], none⟩) :=
  (c7_unmatched_reference_handling (fun _ _ => 0) []
    ⟨"node", "1", some (0, 0), [("ref", "9999")], none⟩ "9999"
    (by decide) (by decide)).1 (Or.inl (by decide))

/-- Claim C7 counterexample: the node with `ref="A12"` against a registry
holding the importable record `"XH12"` is matched by the lookup chain (third
key `"XH" + "12"`), fails the confirmation guard, and then falls through the
loop with no effect at all: the element is untouched, no record is matched
(`codeMatch` is `none`), and — against the claim — the missing-match list
stays empty. -/
theorem c7_counterexample :
    getTag ([("ref", "A12")] : List (String × String)) "ref" = some "A12" ∧
    codeMatch [mkStop "2" "XH12" "N" "S" 0 0 "01" 1 1] "A12" = none ∧
    (processElem (fun _ _ => 0) [mkStop "2" "XH12" "N" "S" 0 0 "01" 1 1]
        ⟨"node", "8", some (0, 0), [("ref", "A12")], none⟩).2 =
      ⟨"node", "8", some (0, 0), [("ref", "A12")], none⟩ ∧
    (processElem (fun _ _ => 0) [mkStop "2" "XH12" "N" "S" 0 0 "01" 1 1]
        ⟨"node", "8", some (0, 0), [("ref", "A12")], none⟩).1.missing = [] := by
  decide

/-- Claim C2: for a matched element, the distance gate runs only for `node`
elements (any other kind keeps `distance_difference = 0` and always proceeds
to mutation); for a node, a distance of at least 100 meters classifies the
element out of range — the element is returned untouched, the out-of-range
counter and report row are produced, and the element still counts as matched —
while a distance below 100 proceeds to the normal mutation phase. The planar
distance itself (WGS84 → ETRS-TM35FIN reprojection with pyproj/shapely,
truncated to an integer) is abstracted as the oracle `dist`; `hcoords` records
that the gate presupposes coordinates on the element. -/
theorem c2_distance_gate (dist : Stop → Option (Int × Int) → Nat) (stops : List Stop)
    (e : OsmElem) (r : String) (s : Stop)
    (h1 : getTag e.tags "ref" = some r) (h2 : r ≠ "")
    (h3 : matchChain stops r = some s) (h4 : s.valid_route_and_timetable = true)
    (h5 : matchGuard r s = true) (_hcoords : e.kind = "node" → e.coords.isSome = true) :
    (e.kind = "node" → 100 ≤ dist s e.coords →
      processElem dist stops e =
        ({ matchedReport r with
            not_within_max_distance := 1
            out_of_range := [⟨s.id, s.stop_id, dist s e.coords, locatorOf e⟩] }, e)) ∧
    (e.kind = "node" → dist s e.coords < 100 →
      processElem dist stops e = applyMutations s r (matchedReport r) e) ∧
    (e.kind ≠ "node" →
      processElem dist stops e = applyMutations s r (matchedReport r) e) := by
  refine ⟨?_, ?_, ?_⟩
  · intro hk hge
    have h6 : ¬ (if e.kind = "node" then dist s e.coords else 0) < 100 := by
      rw [if_pos hk]
      omega
    rw [processElem_outofrange dist stops e h1 h2 h3 h4 h5 h6, if_pos hk]
  · intro hk hlt
    exact processElem_inrange dist stops e h1 h2 h3 h4 h5 (by rw [if_pos hk]; exact hlt)
  · intro hk
    exact processElem_inrange dist stops e h1 h2 h3 h4 h5 (by rw [if_neg hk]; omega)

/-- Claim C2 witness: two positions 150 meters apart yield the out-of-range
classification with the element untouched; 50 meters apart yield the normal
mutation phase. -/
theorem c2_witness :
    processElem (fun _ _ => 150) [mkStop "123" "H1234" "Asema" "Stationen" 60 24 "01" 1 1]
        ⟨"node", "42", some (60, 24), [("ref", "1234")], none⟩ =
      ({ matchedReport "1234" with
          not_within_max_distance := 1
          out_of_range := [⟨"123", "H1234", 150,
            locatorOf ⟨"node", "42", some (60, 24), [("ref", "1234")], none⟩⟩] },
        ⟨"node", "42", some (60, 24), [("ref", "1234")], none⟩) ∧
    processElem (fun _ _ => 50) [mkStop "123" "H1234" "Asema" "Stationen" 60 24 "01" 1 1]
        ⟨"node", "42", some (60, 24), [("ref", "1234")], none⟩ =
      applyMutations (mkStop "123" "H1234" "Asema" "Stationen" 60 24 "01" 1 1) "1234"
        (matchedReport "1234") ⟨"node", "42", some (60, 24), [("ref", "1234")], none⟩ :=
  ⟨(c2_distance_gate (fun _ _ => 150) _ _ "1234"
      (mkStop "123" "H1234" "Asema" "Stationen" 60 24 "01" 1 1) (by decide) (by decide)
      (by decide) (by decide) (by decide) (fun _ => by decide)).1 rfl (by decide),
   (c2_distance_gate (fun _ _ => 50) _ _ "1234"
      (mkStop "123" "H1234" "Asema" "Stationen" 60 24 "01" 1 1) (by decide) (by decide)
      (by decide) (by decide) (by decide) (fun _ => by decide)).2.1 rfl (by decide)⟩

/-- Claim C3: for a matched in-range element whose record is classified to the
capital municipality, at most one reference rewrite is applied: a reference
starting with `"X"` but not `"XH"` is rewritten by substituting `"X"` with
`"XH"` (so the result carries the `"XH"` prefix); otherwise a reference
starting with neither `"H"` nor `"X"` gets `"H"` prepended; otherwise the
reference is unchanged. Elements matched to non-capital records never have
their reference rewritten, and the per-element prefixed count never exceeds
one. -/
theorem c3_reference_prefixing (dist : Stop → Option (Int × Int) → Nat) (stops : List Stop)
    (e : OsmElem) (r : String) (s : Stop)
    (h1 : getTag e.tags "ref" = some r) (h2 : r ≠ "")
    (h3 : matchChain stops r = some s) (h4 : s.valid_route_and_timetable = true)
    (h5 : matchGuard r s = true)
    (h6 : (if e.kind = "node" then dist s e.coords else 0) < 100) :
    (s.municipality = some "Helsinki" →
      ((strStartsWith r "X" = true → strStartsWith r "XH" = false →
        getTag (processElem dist stops e).2.tags "ref" = some (replaceXtoXH r) ∧
        strStartsWith (replaceXtoXH r) "XH" = true ∧
        (processElem dist stops e).1.prefixed = 1) ∧
       (strStartsWith r "H" = false → strStartsWith r "X" = false →
        getTag (processElem dist stops e).2.tags "ref" = some ("H" ++ r) ∧
        (processElem dist stops e).1.prefixed = 1) ∧
       ((strStartsWith r "H" = true ∨ strStartsWith r "XH" = true) →
        getTag (processElem dist stops e).2.tags "ref" = some r ∧
        (processElem dist stops e).1.prefixed = 0))) ∧
    (s.municipality ≠ some "Helsinki" →
      getTag (processElem dist stops e).2.tags "ref" = some r ∧
      (processElem dist stops e).1.prefixed = 0) ∧
    (processElem dist stops e).1.prefixed ≤ 1 := by
  rw [processElem_inrange dist stops e h1 h2 h3 h4 h5 h6]
  refine ⟨fun hm => ⟨fun hX hXH => ?_, fun hH hX => ?_, fun hkeep => ?_⟩, fun hm => ?_, ?_⟩
  · refine ⟨?_, strStartsWith_XH_replace r hX, ?_⟩
    · rw [applyMutations_getTag_ref, rewriteStep_x (matchedReport r) e hm hX hXH,
        getTag_update_tag_self, h1]
      rfl
    · rw [applyMutations_fst_prefixed, rewriteStep_x (matchedReport r) e hm hX hXH]
      rfl
  · refine ⟨?_, ?_⟩
    · rw [applyMutations_getTag_ref, rewriteStep_prepend (matchedReport r) e hm hH hX,
        getTag_update_tag_self, h1]
      rfl
    · rw [applyMutations_fst_prefixed, rewriteStep_prepend (matchedReport r) e hm hH hX]
      rfl
  · refine ⟨?_, ?_⟩
    · rw [applyMutations_getTag_ref, rewriteStep_keep (matchedReport r) e hm hkeep]
      exact h1
    · rw [applyMutations_fst_prefixed, rewriteStep_keep (matchedReport r) e hm hkeep]
      rfl
  · refine ⟨?_, ?_⟩
    · rw [applyMutations_getTag_ref, rewriteStep_not_capital r (matchedReport r) e hm]
      exact h1
    · rw [applyMutations_fst_prefixed, rewriteStep_not_capital r (matchedReport r) e hm]
      rfl
  · rw [applyMutations_fst_prefixed]
    rcases rewriteStep_fst_cases s r (matchedReport r) e with h | h <;> rw [h]
    · show (0 : Nat) ≤ 1
      decide
    · show (0 : Nat) + 1 ≤ 1
      decide

/-- Claim C3 witness: the node `ref="X12"` matched in range to the capital
record `"XH12"` is rewritten once to `ref="XH12"`; the prefixed counter is
exactly one. -/
theorem c3_witness :
    getTag (processElem (fun _ _ => 0) [mkStop "9" "XH12" "V" "W" 0 0 "01" 1 1]
        ⟨"node", "7", some (0, 0), [("ref", "X12")], none⟩).2.tags "ref" =
      some (replaceXtoXH "X12") ∧
    strStartsWith (replaceXtoXH "X12") "XH" = true ∧
    (processElem (fun _ _ => 0) [mkStop "9" "XH12" "V" "W" 0 0 "01" 1 1]
        ⟨"node", "7", some (0, 0), [("ref", "X12")], none⟩).1.prefixed = 1 :=
  ((c3_reference_prefixing (fun _ _ => 0) [mkStop "9" "XH12" "V" "W" 0 0 "01" 1 1]
      ⟨"node", "7", some (0, 0), [("ref", "X12")], none⟩ "X12"
      (mkStop "9" "XH12" "V" "W" 0 0 "01" 1 1) (by decide) (by decide) (by decide)
      (by decide) (by decide) (by decide)).1 (by decide)).1 (by decide) (by decide)

theorem applyMutations_fst_sheltered_yes (s : Stop) (r : String) (rep : Report) (e : OsmElem) :
    (applyMutations s r rep e).1.sheltered_yes =
      (shelterStep s e.tags (stoptypeOf e.tags) e.kind (locatorOf e)
        (rewriteStep s r rep e).1 (rewriteStep s r rep e).2).1.sheltered_yes := by
  rw [applyMutations_def]
  split
  · exact (add_stop_name_fst_only_named _ _ _).2.2.1
  · rfl

theorem applyMutations_fst_sheltered_no (s : Stop) (r : String) (rep : Report) (e : OsmElem) :
    (applyMutations s r rep e).1.sheltered_no =
      (shelterStep s e.tags (stoptypeOf e.tags) e.kind (locatorOf e)
        (rewriteStep s r rep e).1 (rewriteStep s r rep e).2).1.sheltered_no := by
  rw [applyMutations_def]
  split
  · exact (add_stop_name_fst_only_named _ _ _).2.2.2.1
  · rfl

theorem applyMutations_fst_shelter_nodata (s : Stop) (r : String) (rep : Report)
    (e : OsmElem) :
    (applyMutations s r rep e).1.shelter_nodata =
      (shelterStep s e.tags (stoptypeOf e.tags) e.kind (locatorOf e)
        (rewriteStep s r rep e).1 (rewriteStep s r rep e).2).1.shelter_nodata := by
  rw [applyMutations_def]
  split
  · exact (add_stop_name_fst_only_named _ _ _).2.2.2.2.1
  · rfl

theorem applyMutations_fst_conflicts (s : Stop) (r : String) (rep : Report) (e : OsmElem) :
    (applyMutations s r rep e).1.conflicts =
      (shelterStep s e.tags (stoptypeOf e.tags) e.kind (locatorOf e)
        (rewriteStep s r rep e).1 (rewriteStep s r rep e).2).1.conflicts := by
  rw [applyMutations_def]
  split
  · exact (add_stop_name_fst_only_named _ _ _).2.2.2.2.2.1
  · rfl

/-- Claim C4: for a matched in-range element with no shelter tag that is not a
relation and whose stop type (the Python `or` over the `highway`, `railway`,
`public_transport` tags, in that precedence order) is not `stop_position`,
the record's tri-state classification writes `shelter=yes` or `shelter=no`
(each counted once), while `unknown` writes nothing and increments the no-data
counter; and when the element already has a shelter tag whose value disagrees
with a known classification, a conflict row carrying both values is recorded
and the existing tag value is kept. -/
theorem c4_shelter_reconciliation (dist : Stop → Option (Int × Int) → Nat)
    (stops : List Stop) (e : OsmElem) (r : String) (s : Stop)
    (h1 : getTag e.tags "ref" = some r) (h2 : r ≠ "")
    (h3 : matchChain stops r = some s) (h4 : s.valid_route_and_timetable = true)
    (h5 : matchGuard r s = true)
    (h6 : (if e.kind = "node" then dist s e.coords else 0) < 100) :
    (getTag e.tags "shelter" = none → e.kind ≠ "relation" →
      stoptypeOf e.tags ≠ some "stop_position" →
      ((s.shelter = "yes" →
        getTag (processElem dist stops e).2.tags "shelter" = some "yes" ∧
        (processElem dist stops e).1.sheltered_yes = 1) ∧
       (s.shelter = "no" →
        getTag (processElem dist stops e).2.tags "shelter" = some "no" ∧
        (processElem dist stops e).1.sheltered_no = 1) ∧
       (s.shelter = "unknown" →
        getTag (processElem dist stops e).2.tags "shelter" = none ∧
        (processElem dist stops e).1.shelter_nodata = 1))) ∧
    (∀ v, getTag e.tags "shelter" = some v → s.shelter ≠ "unknown" → s.shelter ≠ v →
      (processElem dist stops e).1.conflicts =
        [⟨s.id, s.stop_id, s.shelter, v, locatorOf e⟩] ∧
      getTag (processElem dist stops e).2.tags "shelter" = some v) := by
  rw [processElem_inrange dist stops e h1 h2 h3 h4 h5 h6]
  constructor
  · intro hsn hknr hstp
    refine ⟨fun hy => ⟨?_, ?_⟩, fun hn => ⟨?_, ?_⟩, fun hu => ⟨?_, ?_⟩⟩
    · rw [applyMutations_getTag_shelter, shelterStep_create_yes _ _ _ hsn hknr hstp hy,
        getTag_create_self]
    · rw [applyMutations_fst_sheltered_yes, shelterStep_create_yes _ _ _ hsn hknr hstp hy]
      show (rewriteStep s r (matchedReport r) e).1.sheltered_yes + 1 = 1
      rw [(rewriteStep_fst_only_prefixed s r (matchedReport r) e).2.1]
      rfl
    · rw [applyMutations_getTag_shelter, shelterStep_create_no _ _ _ hsn hknr hstp hn,
        getTag_create_self]
    · rw [applyMutations_fst_sheltered_no, shelterStep_create_no _ _ _ hsn hknr hstp hn]
      show (rewriteStep s r (matchedReport r) e).1.sheltered_no + 1 = 1
      rw [(rewriteStep_fst_only_prefixed s r (matchedReport r) e).2.2.1]
      rfl
    · rw [applyMutations_getTag_shelter, shelterStep_nodata _ _ _ hsn hknr hstp hu,
        rewriteStep_getTag_not_ref s r (matchedReport r) e (by decide)]
      exact hsn
    · rw [applyMutations_fst_shelter_nodata, shelterStep_nodata _ _ _ hsn hknr hstp hu]
      show (rewriteStep s r (matchedReport r) e).1.shelter_nodata + 1 = 1
      rw [(rewriteStep_fst_only_prefixed s r (matchedReport r) e).2.2.2.1]
      rfl
  · intro v hv hnu hne
    constructor
    · rw [applyMutations_fst_conflicts, shelterStep_conflict _ _ _ hv hnu hne]
      show (rewriteStep s r (matchedReport r) e).1.conflicts ++
        [⟨s.id, s.stop_id, s.shelter, v, locatorOf e⟩] =
        [⟨s.id, s.stop_id, s.shelter, v, locatorOf e⟩]
      rw [(rewriteStep_fst_only_prefixed s r (matchedReport r) e).2.2.2.2.1]
      rfl
    · rw [applyMutations_getTag_shelter, shelterStep_conflict _ _ _ hv hnu hne,
        rewriteStep_getTag_not_ref s r (matchedReport r) e (by decide)]
      exact hv

/-- Claim C4 witness: the sheltered record creates `shelter=yes` once on a
bare node, and a node already carrying `shelter=no` matched to a sheltered
record yields exactly one conflict row carrying both values while the tag
keeps its value. -/
theorem c4_witness :
    (getTag (processElem (fun _ _ => 0)
        [mkStop "123" "H1234" "Asema" "Stationen" 60 24 "01" 1 1]
        ⟨"node", "42", some (60, 24), [("ref", "1234")], none⟩).2.tags "shelter" =
      some "yes" ∧
     (processElem (fun _ _ => 0)
        [mkStop "123" "H1234" "Asema" "Stationen" 60 24 "01" 1 1]
        ⟨"node", "42", some (60, 24), [("ref", "1234")], none⟩).1.sheltered_yes = 1) ∧
    ((processElem (fun _ _ => 0)
        [mkStop "123" "H1234" "Asema" "Stationen" 60 24 "01" 1 1]
        ⟨"node", "43", some (60, 24), [("ref", "1234"), ("shelter", "no")], none⟩).1.conflicts =
      [⟨"123", "H1234", "yes", "no",
        locatorOf ⟨"node", "43", some (60, 24),
          [("ref", "1234"), ("shelter", "no")], none⟩⟩] ∧
     getTag (processElem (fun _ _ => 0)
        [mkStop "123" "H1234" "Asema" "Stationen" 60 24 "01" 1 1]
        ⟨"node", "43", some (60, 24), [("ref", "1234"), ("shelter", "no")], none⟩).2.tags
        "shelter" = some "no") :=
  ⟨((c4_shelter_reconciliation (fun _ _ => 0)
      [mkStop "123" "H1234" "Asema" "Stationen" 60 24 "01" 1 1]
      ⟨"node", "42", some (60, 24), [("ref", "1234")], none⟩ "1234"
      (mkStop "123" "H1234" "Asema" "Stationen" 60 24 "01" 1 1) (by decide) (by decide)
      (by decide) (by decide) (by decide) (by decide)).1 (by decide) (by decide)
      (by decide)).1 (by decide),
   (c4_shelter_reconciliation (fun _ _ => 0)
      [mkStop "123" "H1234" "Asema" "Stationen" 60 24 "01" 1 1]
      ⟨"node", "43", some (60, 24), [("ref", "1234"), ("shelter", "no")], none⟩ "1234"
      (mkStop "123" "H1234" "Asema" "Stationen" 60 24 "01" 1 1) (by decide) (by decide)
      (by decide) (by decide) (by decide) (by decide)).2 "no" (by decide) (by decide)
      (by decide)⟩

theorem processDoc_snd_cons (dist : Stop → Option (Int × Int) → Nat) (stops : List Stop)
    (e : OsmElem) (rest : List OsmElem) :
    (processDoc dist stops (e :: rest)).2 =
      (processElem dist stops e).2 :: (processDoc dist stops rest).2 := rfl

/-- Claim C10: matching never consumes or marks a registry record — the
registry list is a fixed parameter of the pass and every element's result
depends only on that fixed registry and the element itself, so the document
pass is literally the element transformer mapped over the document; and two
distinct elements whose references resolve to the same record are each
matched (each counts once) from that same record within one run. -/
theorem c10_registry_not_consumed (dist : Stop → Option (Int × Int) → Nat)
    (stops : List Stop) (es : List OsmElem) :
    ((processDoc dist stops es).2 = es.map (fun e => (processElem dist stops e).2)) ∧
    (∀ e1 e2 r1 r2 s, e1 ∈ es → e2 ∈ es →
      getTag e1.tags "ref" = some r1 → r1 ≠ "" →
      getTag e2.tags "ref" = some r2 → r2 ≠ "" →
      matchChain stops r1 = some s → matchChain stops r2 = some s →
      s.valid_route_and_timetable = true →
      matchGuard r1 s = true → matchGuard r2 s = true →
      codeMatch stops r1 = some s ∧ codeMatch stops r2 = some s ∧
      (processElem dist stops e1).1.matched = 1 ∧
      (processElem dist stops e2).1.matched = 1) := by
  constructor
  · induction es with
    | nil => rfl
    | cons e rest ih => rw [processDoc_snd_cons, ih, List.map_cons]
  · intro e1 e2 r1 r2 s _ _ ha1 hb1 ha2 hb2 hc1 hc2 hv hg1 hg2
    have hmatched : ∀ (e' : OsmElem) (r' : String), getTag e'.tags "ref" = some r' →
        r' ≠ "" → matchChain stops r' = some s → matchGuard r' s = true →
        (processElem dist stops e').1.matched = 1 := by
      intro e' r' ha hb hcc hg
      by_cases hd : (if e'.kind = "node" then dist s e'.coords else 0) < 100
      · rw [processElem_inrange dist stops e' ha hb hcc hv hg hd, applyMutations_fst_matched]
        rfl
      · rw [processElem_outofrange dist stops e' ha hb hcc hv hg hd]
        rfl
    have hcm : ∀ r', matchChain stops r' = some s → matchGuard r' s = true →
        codeMatch stops r' = some s := by
      intro r' hcc hg
      unfold codeMatch
      rw [hcc]
      show (if matchGuard r' s = true then some s else none) = some s
      rw [if_pos hg]
    exact ⟨hcm r1 hc1 hg1, hcm r2 hc2 hg2, hmatched e1 r1 ha1 hb1 hc1 hg1,
      hmatched e2 r2 ha2 hb2 hc2 hg2⟩

/-- Claim C10 witness: two distinct nodes carrying the same reference `"1234"`
in one document both resolve to the single registry record `"H1234"` and are
both counted as matched. -/
theorem c10_witness :
    codeMatch [mkStop "123" "H1234" "Asema" "Stationen" 60 24 "01" 1 1] "1234" =
      some (mkStop "123" "H1234" "Asema" "Stationen" 60 24 "01" 1 1) ∧
    codeMatch [mkStop "123" "H1234" "Asema" "Stationen" 60 24 "01" 1 1] "1234" =
      some (mkStop "123" "H1234" "Asema" "Stationen" 60 24 "01" 1 1) ∧
    (processElem (fun _ _ => 0) [mkStop "123" "H1234" "Asema" "Stationen" 60 24 "01" 1 1]
      ⟨"node", "42", some (60, 24), [("ref", "1234")], none⟩).1.matched = 1 ∧
    (processElem (fun _ _ => 0) [mkStop "123" "H1234" "Asema" "Stationen" 60 24 "01" 1 1]
      ⟨"node", "43", some (60, 24), [("ref", "1234")], none⟩).1.matched = 1 :=
  (c10_registry_not_consumed (fun _ _ => 0)
      [mkStop "123" "H1234" "Asema" "Stationen" 60 24 "01" 1 1]
      [⟨"node", "42", some (60, 24), [("ref", "1234")], none⟩,
       ⟨"node", "43", some (60, 24), [("ref", "1234")], none⟩]).2
    ⟨"node", "42", some (60, 24), [("ref", "1234")], none⟩
    ⟨"node", "43", some (60, 24), [("ref", "1234")], none⟩
    "1234" "1234" (mkStop "123" "H1234" "Asema" "Stationen" 60 24 "01" 1 1)
    (by decide) (by decide) (by decide) (by decide) (by decide) (by decide)
    (by decide) (by decide) (by decide) (by decide) (by decide)

/-! ### Filter-level lemmas for the no-overwrite invariant -/

theorem filter_key_map_updater (t : List (String × String)) (key v : String) {k : String}
    (h : k ≠ key) :
    (t.map (fun p => if p.1 = key then (p.1, v) else p)).filter
        (fun p => decide (p.1 = k)) =
      t.filter (fun p => decide (p.1 = k)) := by
  induction t with
  | nil => rfl
  | cons a t ih =>
    simp only [List.map_cons, List.filter_cons]
    by_cases hakey : a.1 = key
    · have hak : ¬ (a.1 = k) := fun hh => h (hh.symm.trans hakey)
      have hkk : ¬ (key = k) := fun hh => h hh.symm
      simp [hakey, hak, ih, hkk]
    · by_cases hak : a.1 = k
      · simp [hakey, hak, ih, h]
      · simp [hakey, hak, ih, h]

theorem filter_rewriteStep (s : Stop) (r : String) (rep : Report) (e : OsmElem)
    {k : String} (hk : k ≠ "ref") :
    (rewriteStep s r rep e).2.tags.filter (fun p => decide (p.1 = k)) =
      e.tags.filter (fun p => decide (p.1 = k)) := by
  unfold rewriteStep
  split_ifs <;> first
    | rfl
    | exact filter_key_map_updater e.tags "ref" _ hk

theorem filter_append_singleton_ne (t : List (String × String)) {k k' : String} (v : String)
    (h : k' ≠ k) :
    (t ++ [(k', v)]).filter (fun p => decide (p.1 = k)) =
      t.filter (fun p => decide (p.1 = k)) := by
  rw [List.filter_append]
  simp [h]

theorem filter_shelterStep (s : Stop) (osm_tags : List (String × String))
    (st : Option String) (kind loc : String) (rep : Report) (e : OsmElem) {k : String}
    (hk : k ≠ "shelter" ∨ getTag osm_tags "shelter" ≠ none) :
    (shelterStep s osm_tags st kind loc rep e).2.tags.filter (fun p => decide (p.1 = k)) =
      e.tags.filter (fun p => decide (p.1 = k)) := by
  rcases shelterStep_snd_cases s osm_tags st kind loc rep e with h | ⟨h, hsnap, -⟩ <;> rw [h]
  rcases hk with hk | hk
  · exact filter_append_singleton_ne e.tags _ (Ne.symm hk)
  · exact absurd hsnap hk

theorem filter_add_stop_name (rep : Report) (e : OsmElem) (s : Stop) {k : String}
    (hcond : (getTag e.tags k).isSome = true ∨
      (k ≠ "name" ∧ k ≠ "name:fi" ∧ k ≠ "name:sv")) :
    (add_stop_name rep e s).2.tags.filter (fun p => decide (p.1 = k)) =
      e.tags.filter (fun p => decide (p.1 = k)) := by
  rw [add_stop_name_tags_shape, List.filter_append, List.filter_append, List.filter_append]
  have hgen : ∀ (c : Prop) (inst : Decidable c) (key v : String), key ≠ k →
      (if c then [(key, v)] else []).filter (fun p => decide (p.1 = k)) = [] := by
    intro c inst key v hne
    split <;> simp [hne]
  have hself : ∀ (key v : String), key = k → (getTag e.tags k).isSome = true →
      (if getTag e.tags key = none then [(key, v)] else []).filter
        (fun p => decide (p.1 = k)) = [] := by
    intro key v hkey hsome
    subst hkey
    have hne : getTag e.tags key ≠ none := by
      intro hn
      rw [hn] at hsome
      simp at hsome
    rw [if_neg hne]
    rfl
  have h1 : (if getTag e.tags "name" = none then [("name", s.name)] else []).filter
      (fun p => decide (p.1 = k)) = [] := by
    by_cases hn : k = "name"
    · subst hn
      rcases hcond with hs | ⟨hk1, -, -⟩
      · exact hself _ _ rfl hs
      · exact absurd rfl hk1
    · exact hgen _ _ _ _ (fun hh => hn hh.symm)
  have h2 : (if getTag e.tags "name:fi" = none then [("name:fi", s.name)] else []).filter
      (fun p => decide (p.1 = k)) = [] := by
    by_cases hn : k = "name:fi"
    · subst hn
      rcases hcond with hs | ⟨-, hk2, -⟩
      · exact hself _ _ rfl hs
      · exact absurd rfl hk2
    · exact hgen _ _ _ _ (fun hh => hn hh.symm)
  have h3 : (if getTag e.tags "name:sv" = none then [("name:sv", s.name_sv)] else []).filter
      (fun p => decide (p.1 = k)) = [] := by
    by_cases hn : k = "name:sv"
    · subst hn
      rcases hcond with hs | ⟨-, -, hk3⟩
      · exact hself _ _ rfl hs
      · exact absurd rfl hk3
    · exact hgen _ _ _ _ (fun hh => hn hh.symm)
  rw [h1, h2, h3, List.append_nil, List.append_nil, List.append_nil]

theorem processElem_snd_cases (dist : Stop → Option (Int × Int) → Nat) (stops : List Stop)
    (e : OsmElem) :
    (processElem dist stops e).2 = e ∨
      ∃ r s, getTag e.tags "ref" = some r ∧ r ≠ "" ∧ matchChain stops r = some s ∧
        s.valid_route_and_timetable = true ∧ matchGuard r s = true ∧
        (processElem dist stops e).2 = (applyMutations s r (matchedReport r) e).2 := by
  cases hr : getTag e.tags "ref" with
  | none =>
    left
    rw [processElem_skip dist stops e hr]
  | some r =>
    by_cases hre : r = ""
    · left
      subst hre
      rw [processElem_skip_empty dist stops e hr]
    · cases hc : matchChain stops r with
      | none =>
        left
        rw [processElem_nomatch dist stops e hr hre hc]
      | some s =>
        cases hv : s.valid_route_and_timetable with
        | false =>
          left
          rw [processElem_invalid dist stops e hr hre hc hv]
        | true =>
          cases hg : matchGuard r s with
          | false =>
            left
            rw [processElem_guardfail dist stops e hr hre hc hv hg]
          | true =>
            by_cases hd : (if e.kind = "node" then dist s e.coords else 0) < 100
            · right
              exact ⟨r, s, rfl, hre, hc, hv, hg,
                by rw [processElem_inrange dist stops e hr hre hc hv hg hd]⟩
            · left
              rw [processElem_outofrange dist stops e hr hre hc hv hg hd]

/-- Claim C5: the pass never changes an existing `name`, `name:fi`, `name:sv`
or `shelter` value — for every key other than `ref`, if the key is already
present (or is not one of the four creatable keys at all), the element's tag
entries under that key are exactly preserved; any `name`/`name:fi` value that
appears comes from an existing tag or is the matched record's primary name,
any `name:sv` value from an existing tag or the record's secondary name, and
any `shelter` value from an existing tag or the created `"yes"`/`"no"`; the
reference key is the only key whose value is ever rewritten. -/
theorem c5_no_overwrite (dist : Stop → Option (Int × Int) → Nat) (stops : List Stop)
    (e : OsmElem) :
    (∀ k : String, k ≠ "ref" →
      ((getTag e.tags k).isSome = true ∨
        (k ≠ "name" ∧ k ≠ "name:fi" ∧ k ≠ "name:sv" ∧ k ≠ "shelter")) →
      (processElem dist stops e).2.tags.filter (fun p => decide (p.1 = k)) =
        e.tags.filter (fun p => decide (p.1 = k))) ∧
    (∀ v, getTag (processElem dist stops e).2.tags "name" = some v →
      getTag e.tags "name" = some v ∨
      ∃ r s, getTag e.tags "ref" = some r ∧ matchChain stops r = some s ∧ v = s.name) ∧
    (∀ v, getTag (processElem dist stops e).2.tags "name:fi" = some v →
      getTag e.tags "name:fi" = some v ∨
      ∃ r s, getTag e.tags "ref" = some r ∧ matchChain stops r = some s ∧ v = s.name) ∧
    (∀ v, getTag (processElem dist stops e).2.tags "name:sv" = some v →
      getTag e.tags "name:sv" = some v ∨
      ∃ r s, getTag e.tags "ref" = some r ∧ matchChain stops r = some s ∧ v = s.name_sv) ∧
    (∀ v, getTag (processElem dist stops e).2.tags "shelter" = some v →
      getTag e.tags "shelter" = some v ∨ v = "yes" ∨ v = "no") := by
  rcases processElem_snd_cases dist stops e with h | ⟨r, s, hr, hre, hc, hv, hg, h⟩
  · rw [h]
    exact ⟨fun k _ _ => rfl, fun v hval => Or.inl hval, fun v hval => Or.inl hval,
      fun v hval => Or.inl hval, fun v hval => Or.inl hval⟩
  · rw [h]
    refine ⟨?_, ?_, ?_, ?_, ?_⟩
    · intro k hkref hkcond
      have hcond3 : k ≠ "shelter" ∨ getTag e.tags "shelter" ≠ none := by
        rcases hkcond with hs | ⟨-, -, -, hk4⟩
        · by_cases hksh : k = "shelter"
          · subst hksh
            right
            intro hn
            rw [hn] at hs
            simp at hs
          · exact Or.inl hksh
        · exact Or.inl hk4
      have hcond2 : (getTag (shelterStep s e.tags (stoptypeOf e.tags) e.kind (locatorOf e)
          (rewriteStep s r (matchedReport r) e).1
          (rewriteStep s r (matchedReport r) e).2).2.tags k).isSome = true ∨
          (k ≠ "name" ∧ k ≠ "name:fi" ∧ k ≠ "name:sv") := by
        rcases hkcond with hs | ⟨hk1, hk2, hk3, -⟩
        · left
          by_cases hksh : k = "shelter"
          · subst hksh
            rcases shelterStep_snd_cases s e.tags (stoptypeOf e.tags) e.kind (locatorOf e)
                (rewriteStep s r (matchedReport r) e).1
                (rewriteStep s r (matchedReport r) e).2 with h2 | ⟨h2, -, -⟩ <;> rw [h2]
            · rw [rewriteStep_getTag_not_ref s r (matchedReport r) e (by decide)]
              exact hs
            · rw [getTag_create_self]
              rfl
          · rw [shelterStep_getTag_not_shelter _ _ _ _ _ _ _ hksh,
              rewriteStep_getTag_not_ref s r (matchedReport r) e hkref]
            exact hs
        · exact Or.inr ⟨hk1, hk2, hk3⟩
      rw [applyMutations_def]
      split
      · rw [filter_add_stop_name _ _ _ hcond2,
          filter_shelterStep _ _ _ _ _ _ _ hcond3,
          filter_rewriteStep s r (matchedReport r) e hkref]
      · rw [filter_shelterStep _ _ _ _ _ _ _ hcond3,
          filter_rewriteStep s r (matchedReport r) e hkref]
    · intro v hval
      rw [applyMutations_getTag_name] at hval
      cases hvv : getTag e.tags "name" with
      | some w =>
        rw [hvv] at hval
        exact Or.inl hval
      | none =>
        rw [hvv] at hval
        exact Or.inr ⟨r, s, hr, hc, (Option.some_injective _ hval).symm⟩
    · intro v hval
      rw [applyMutations_getTag_fi] at hval
      cases hvv : getTag e.tags "name:fi" with
      | some w =>
        rw [hvv] at hval
        exact Or.inl hval
      | none =>
        rw [hvv] at hval
        exact Or.inr ⟨r, s, hr, hc, (Option.some_injective _ hval).symm⟩
    · intro v hval
      rw [applyMutations_getTag_sv] at hval
      cases hvv : getTag e.tags "name:sv" with
      | some w =>
        rw [hvv] at hval
        exact Or.inl hval
      | none =>
        rw [hvv] at hval
        exact Or.inr ⟨r, s, hr, hc, (Option.some_injective _ hval).symm⟩
    · intro v hval
      rcases applyMutations_shelter_cases s r (matchedReport r) e with h2 | ⟨h2, -, hyn⟩
      · rw [h2] at hval
        exact Or.inl hval
      · rw [h2] at hval
        right
        rcases hyn with hy | hn
        · left
          rw [← hy]
          exact (Option.some_injective _ hval).symm
        · right
          rw [← hn]
          exact (Option.some_injective _ hval).symm

/-- Claim C5 witness: a node that already carries `name="Vanha"` and
`shelter="no"` keeps those tag entries bit-for-bit through a matched in-range
run against a sheltered record with a different name. -/
theorem c5_witness :
    (processElem (fun _ _ => 0) [mkStop "123" "H1234" "Asema" "Stationen" 60 24 "01" 1 1]
        ⟨"node", "44", some (60, 24),
          [("ref", "1234"), ("name", "Vanha"), ("shelter", "no")], none⟩).2.tags.filter
        (fun p => decide (p.1 = "name")) =
      ([("ref", "1234"), ("name", "Vanha"), ("shelter", "no")] :
        List (String × String)).filter (fun p => decide (p.1 = "name")) :=
  (c5_no_overwrite (fun _ _ => 0) [mkStop "123" "H1234" "Asema" "Stationen" 60 24 "01" 1 1]
    ⟨"node", "44", some (60, 24),
      [("ref", "1234"), ("name", "Vanha"), ("shelter", "no")], none⟩).1 "name"
    (by decide) (Or.inl (by decide))

/-- Claim C6 (amended): running the reconciliation a second time with the
first run's output document as input produces zero additional mutations —
no tag is created twice and no reference is prefixed twice — PROVIDED the
registry classifies municipalities from key shapes (as constructed records
do) and every reference rewritten by the first run either no longer resolves
through the lookup chain or resolves verbatim back to the very record it was
matched with in the first run. Without that proviso a rewritten reference can
resolve to a different record and the second run can create a shelter tag
from it (see the counterexample). -/
theorem c6_second_run_idempotent (dist : Stop → Option (Int × Int) → Nat)
    (stops : List Stop) (es : List OsmElem) (hwf : registryWF stops = true)
    (hstable : ∀ e ∈ es, secondLookupOk dist stops e = true) :
    (processDoc dist stops (processDoc dist stops es).2).2 =
      (processDoc dist stops es).2 := by
  induction es with
  | nil => rfl
  | cons e rest ih =>
    rw [processDoc_snd_cons dist stops e rest, processDoc_snd_cons dist stops
      (processElem dist stops e).2 (processDoc dist stops rest).2,
      processElem_snd_idem dist stops e hwf (hstable e (List.mem_cons_self e rest)),
      ih (fun e' he' => hstable e' (List.mem_cons_of_mem e he'))]

/-- Claim C6 counterexample: with the registry records `"HX5"` (shelter code
`"99"`, i.e. unknown) and `"XH5"` (sheltered) and the single node
`ref="X5"`, the first run matches `"HX5"`, rewrites the reference to
`"XH5"` and writes no shelter; the second run resolves the rewritten
reference to the OTHER record `"XH5"` and creates `shelter=yes` — an
additional mutation, so reconciliation on its own output is not idempotent as
claimed. -/
theorem c6_counterexample :
    ((processDoc (fun _ _ => 0)
        [mkStop "10" "HX5" "A" "B" 0 0 "99" 1 1, mkStop "11" "XH5" "C" "D" 0 0 "01" 1 1]
        [⟨"node", "9", some (0, 0), [("ref", "X5")], none⟩]).2.map OsmElem.tags =
      [[("ref", "XH5"), ("name", "A"), ("name:fi", "A"), ("name:sv", "B")]]) ∧
    ((processDoc (fun _ _ => 0)
        [mkStop "10" "HX5" "A" "B" 0 0 "99" 1 1, mkStop "11" "XH5" "C" "D" 0 0 "01" 1 1]
        (processDoc (fun _ _ => 0)
          [mkStop "10" "HX5" "A" "B" 0 0 "99" 1 1, mkStop "11" "XH5" "C" "D" 0 0 "01" 1 1]
          [⟨"node", "9", some (0, 0), [("ref", "X5")], none⟩]).2).2.map OsmElem.tags =
      [[("ref", "XH5"), ("name", "A"), ("name:fi", "A"), ("name:sv", "B"),
        ("shelter", "yes")]]) ∧
    (processDoc (fun _ _ => 0)
        [mkStop "10" "HX5" "A" "B" 0 0 "99" 1 1, mkStop "11" "XH5" "C" "D" 0 0 "01" 1 1]
        (processDoc (fun _ _ => 0)
          [mkStop "10" "HX5" "A" "B" 0 0 "99" 1 1, mkStop "11" "XH5" "C" "D" 0 0 "01" 1 1]
          [⟨"node", "9", some (0, 0), [("ref", "X5")], none⟩]).2).2 ≠
      (processDoc (fun _ _ => 0)
        [mkStop "10" "HX5" "A" "B" 0 0 "99" 1 1, mkStop "11" "XH5" "C" "D" 0 0 "01" 1 1]
        [⟨"node", "9", some (0, 0), [("ref", "X5")], none⟩]).2 := by
  decide

/-- Claim C6 witness: for the document with one node `ref="1234"` against the
single capital record `"H1234"` (whose rewritten reference `"H1234"` resolves
verbatim back to the same record), the second run leaves the first run's
output document unchanged. -/
theorem c6_witness :
    (processDoc (fun _ _ => 0) [mkStop "123" "H1234" "Asema" "Stationen" 60 24 "01" 1 1]
        (processDoc (fun _ _ => 0) [mkStop "123" "H1234" "Asema" "Stationen" 60 24 "01" 1 1]
          [⟨"node", "42", some (60, 24), [("ref", "1234")], none⟩]).2).2 =
      (processDoc (fun _ _ => 0) [mkStop "123" "H1234" "Asema" "Stationen" 60 24 "01" 1 1]
        [⟨"node", "42", some (60, 24), [("ref", "1234")], none⟩]).2 :=
  c6_second_run_idempotent (fun _ _ => 0)
    [mkStop "123" "H1234" "Asema" "Stationen" 60 24 "01" 1 1]
    [⟨"node", "42", some (60, 24), [("ref", "1234")], none⟩]
    (by decide) (by decide)
